import Mathlib

/-!
Verification of the VAN-bus software modem (0xCAFEDECAF/VanBus).

This file gives a shallow embedding, in Lean, of the parts of the library
that the specification talks about:

* the CRC codec of src/VanBusRx.cpp (functions named here crcRound, crcByte,
  crcLoop, _crc, CheckCrc, CheckCrcAndRepair);
* the receive queue of src/src/VanBusRx.h (TVanPacketRxDesc, TVanPacketRxQueue,
  _AdvanceHead, Available, Receive, IsQueueOverrun);
* the edge-interrupt receive decoder RxPinChangeIsr of src/VanBusRx.cpp;
* the transmit packet preparation of src/src/VanBusTx.cpp (PreparePacket).

Machine integers are modelled as Nat with explicit truncation (% 256 for
uint8_t, % 65536 for uint16_t, % 4294967296 for uint32_t) at the points
where the C code can overflow.  Byte buffers are modelled as List Nat.
-/

set_option maxRecDepth 100000

namespace VanBus

/-! ## CRC codec, from src/VanBusRx.cpp lines 21-45 and 78-100

The C inner loop body (identical in _crc and in TVanPacketRxDesc::CheckCrc) is

    uint16_t bit = crc16 & 0x4000;
    if (byte & 0x80) bit ^= 0x4000;
    byte <<= 1;
    crc16 <<= 1;
    if (bit) crc16 ^= VAN_CRC_POLYNOM;

crcRound is one execution of this body on the pair (crc16, byte); the shifts
truncate because crc16 is uint16_t and byte is uint8_t / unsigned char.
-/

/-- One round of the CRC inner loop of src/VanBusRx.cpp (VAN_CRC_POLYNOM = 0x0F9D). -/
def crcRound (p : Nat × Nat) : Nat × Nat :=
  let bit := cond ((p.2 &&& 0x80) != 0) ((p.1 &&& 0x4000) ^^^ 0x4000) (p.1 &&& 0x4000)
  let byte2 := (p.2 <<< 1) % 256
  let crc2 := (p.1 <<< 1) % 65536
  (cond (bit != 0) (crc2 ^^^ 0x0F9D) crc2, byte2)

/-- n executions of the CRC inner loop body (the loop for j = 0 .. n-1). -/
def crcRounds : Nat → Nat × Nat → Nat × Nat
  | 0, p => p
  | n + 1, p => crcRounds n (crcRound p)

/-- Processing of one input byte by the CRC loop: the 8 rounds of the inner
for-loop of _crc / CheckCrc. -/
def crcByte (crc16 byte : Nat) : Nat := (crcRounds 8 (crc16, byte)).1

/-- The outer for-loop of _crc / CheckCrc over a list of input bytes. -/
def crcLoop (crc16 : Nat) (l : List Nat) : Nat := l.foldl crcByte crc16

/-- The final steps of _crc: crc16 ^= 0x7FFF; crc16 <<= 1 (uint16_t). -/
def finalizeCrc (s : Nat) : Nat := ((s ^^^ 0x7FFF) <<< 1) % 65536

/-- _crc(bytes, size) of src/VanBusRx.cpp lines 23-45, with size = bytes.length:
seed 0x7FFF, process bytes 1 .. size-3 (the first byte and the last two are
skipped), then invert and shift left by one. -/
def _crc (bytes : List Nat) : Nat :=
  finalizeCrc (crcLoop 0x7FFF ((bytes.take (bytes.length - 2)).drop 1))

/-- TVanPacketRxDesc::CheckCrc of src/VanBusRx.cpp lines 78-100: seed 0x7FFF,
process bytes 1 .. size-1 (only the first byte is skipped), mask to 15 bits,
compare with the residue 0x19B7. -/
def CheckCrc (bytes : List Nat) : Bool :=
  crcLoop 0x7FFF (bytes.drop 1) &&& 0x7FFF == 0x19B7

/-- Overwriting the last two bytes of a frame with the value of _crc,
high byte first (as PreparePacket does, and as claim C1 describes). -/
def withCrc (bytes : List Nat) : List Nat :=
  bytes.take (bytes.length - 2) ++ [_crc bytes >>> 8, _crc bytes &&& 0xFF]

/-- Flipping bit atBit (0 = LSB) of byte atByte of a frame, as the statement
bytes[atByte] ^= 1 << atBit does. -/
def flipBit (bytes : List Nat) (atByte atBit : Nat) : List Nat :=
  bytes.set atByte ((bytes.getD atByte 0) ^^^ (1 <<< atBit))

/-! ## GF(2) structure of the CRC round

These are proof-side helpers (not part of the embedding): dStep is the
evolution of an xor-difference of two CRC states across one round, and gbit
is the contribution of the top bit of the current byte. -/

/-- Difference evolution of the CRC state across one round. -/
def dStep (d : Nat) : Nat :=
  cond ((d &&& 0x4000) != 0) (((d <<< 1) % 65536) ^^^ 0x0F9D) ((d <<< 1) % 65536)

/-- n-fold iteration of dStep. -/
def dStepN : Nat → Nat → Nat
  | 0, d => d
  | n + 1, d => dStepN n (dStep d)

/-- Contribution of the top bit of the byte to the CRC round. -/
def gbit (b : Nat) : Nat := cond ((b &&& 0x80) != 0) 0x0F9D 0

theorem xor_shiftLeft_mod (x y k n : Nat) :
    ((x ^^^ y) <<< k) % 2 ^ n = ((x <<< k) % 2 ^ n) ^^^ ((y <<< k) % 2 ^ n) := by
  apply Nat.eq_of_testBit_eq
  intro i
  simp only [Nat.testBit_mod_two_pow, Nat.testBit_shiftLeft, Nat.testBit_xor]
  by_cases h1 : i < n <;> by_cases h2 : k ≤ i <;>
    simp [h1, h2, ge_iff_le]

theorem xor_shl1_mod65536 (x y : Nat) :
    ((x ^^^ y) <<< 1) % 65536 = ((x <<< 1) % 65536) ^^^ ((y <<< 1) % 65536) := by
  have h := xor_shiftLeft_mod x y 1 16
  norm_num at h
  exact h

theorem xor_shl1_mod256 (x y : Nat) :
    ((x ^^^ y) <<< 1) % 256 = ((x <<< 1) % 256) ^^^ ((y <<< 1) % 256) := by
  have h := xor_shiftLeft_mod x y 1 8
  norm_num at h
  exact h

theorem xor_shiftRight_distrib (x y k : Nat) :
    (x ^^^ y) >>> k = (x >>> k) ^^^ (y >>> k) := by
  apply Nat.eq_of_testBit_eq
  intro i
  simp

theorem xor_rotate (x y z : Nat) : (x ^^^ y) ^^^ z = (x ^^^ z) ^^^ y := by
  rw [Nat.xor_assoc, Nat.xor_comm y z, ← Nat.xor_assoc]

theorem xor_left_comm (x y z : Nat) : x ^^^ (y ^^^ z) = y ^^^ (x ^^^ z) := by
  rw [← Nat.xor_assoc, Nat.xor_comm x y, Nat.xor_assoc]

theorem xor_cancel_left (x y : Nat) : x ^^^ (x ^^^ y) = y := by
  rw [← Nat.xor_assoc, Nat.xor_self, Nat.zero_xor]

theorem and_bit14 (s : Nat) : s &&& 0x4000 = cond (s.testBit 14) 0x4000 0 := by
  have h := Nat.and_two_pow s 14
  cases hb : s.testBit 14 <;> simp [hb] at h <;> simpa [hb] using h

theorem and_bit7 (b : Nat) : b &&& 0x80 = cond (b.testBit 7) 0x80 0 := by
  have h := Nat.and_two_pow b 7
  cases hb : b.testBit 7 <;> simp [hb] at h <;> simpa [hb] using h

theorem crcRound_split (s b : Nat) :
    crcRound (s, b) = (dStep s ^^^ gbit b, (b <<< 1) % 256) := by
  unfold crcRound dStep gbit
  rw [show (s, b).1 = s from rfl, show (s, b).2 = b from rfl]
  rw [and_bit14, and_bit7]
  cases hs : s.testBit 14 <;> cases hb : b.testBit 7 <;>
    simp [Nat.xor_assoc]

theorem gbit_xor (a b : Nat) : gbit (a ^^^ b) = gbit a ^^^ gbit b := by
  unfold gbit
  rw [Nat.and_xor_distrib_right, and_bit7 a, and_bit7 b]
  cases ha : a.testBit 7 <;> cases hb : b.testBit 7 <;> simp

theorem dStep_xor (a b : Nat) : dStep (a ^^^ b) = dStep a ^^^ dStep b := by
  unfold dStep
  rw [Nat.and_xor_distrib_right, and_bit14 a, and_bit14 b, xor_shl1_mod65536]
  cases ha : a.testBit 14 <;> cases hb : b.testBit 14 <;>
    simp [Nat.xor_assoc, Nat.xor_comm, xor_left_comm, xor_cancel_left]

theorem dStepN_xor (n a b : Nat) : dStepN n (a ^^^ b) = dStepN n a ^^^ dStepN n b := by
  induction n generalizing a b with
  | zero => rfl
  | succ m ih => rw [dStepN, dStep_xor, ih]; rfl

theorem dStepN_add (m n d : Nat) : dStepN (m + n) d = dStepN n (dStepN m d) := by
  induction m generalizing d with
  | zero => rw [Nat.zero_add]; rfl
  | succ k ih =>
      rw [show k + 1 + n = (k + n) + 1 from by omega]
      rw [dStepN, dStepN, ih]

theorem crcRound_xor (s1 b1 s2 b2 : Nat) :
    crcRound (s1 ^^^ s2, b1 ^^^ b2) =
      ((crcRound (s1, b1)).1 ^^^ (crcRound (s2, b2)).1,
       (crcRound (s1, b1)).2 ^^^ (crcRound (s2, b2)).2) := by
  rw [crcRound_split, crcRound_split, crcRound_split]
  refine Prod.ext ?_ ?_
  · show dStep (s1 ^^^ s2) ^^^ gbit (b1 ^^^ b2) =
      (dStep s1 ^^^ gbit b1) ^^^ (dStep s2 ^^^ gbit b2)
    rw [dStep_xor, gbit_xor]
    rw [Nat.xor_assoc, Nat.xor_assoc]
    congr 1
    rw [← Nat.xor_assoc, ← Nat.xor_assoc, Nat.xor_comm (gbit b1) (dStep s2)]
  · exact (xor_shl1_mod256 b1 b2).symm ▸ rfl

theorem crcRounds_xor (n : Nat) (s1 b1 s2 b2 : Nat) :
    crcRounds n (s1 ^^^ s2, b1 ^^^ b2) =
      ((crcRounds n (s1, b1)).1 ^^^ (crcRounds n (s2, b2)).1,
       (crcRounds n (s1, b1)).2 ^^^ (crcRounds n (s2, b2)).2) := by
  induction n generalizing s1 b1 s2 b2 with
  | zero => rfl
  | succ m ih =>
      show crcRounds m (crcRound (s1 ^^^ s2, b1 ^^^ b2)) = _
      rw [crcRound_xor]
      rw [show crcRound (s1, b1) = ((crcRound (s1, b1)).1, (crcRound (s1, b1)).2) from rfl,
          show crcRound (s2, b2) = ((crcRound (s2, b2)).1, (crcRound (s2, b2)).2) from rfl] at *
      exact ih _ _ _ _

theorem crcByte_xor (s1 b1 s2 b2 : Nat) :
    crcByte (s1 ^^^ s2) (b1 ^^^ b2) = crcByte s1 b1 ^^^ crcByte s2 b2 := by
  unfold crcByte
  rw [crcRounds_xor]

theorem crcRounds_zero_byte (n x : Nat) : crcRounds n (x, 0) = (dStepN n x, 0) := by
  induction n generalizing x with
  | zero => rfl
  | succ m ih =>
      show crcRounds m (crcRound (x, 0)) = _
      rw [crcRound_split]
      simp only [gbit, show (0 : Nat) &&& 0x80 = 0 from rfl, show ((0:Nat) <<< 1) % 256 = 0 from rfl]
      simpa using ih (dStep x)

theorem crcByte_zero_byte (x : Nat) : crcByte x 0 = dStepN 8 x := by
  unfold crcByte
  rw [crcRounds_zero_byte]

theorem crcByte_xor_state (s d b : Nat) :
    crcByte (s ^^^ d) b = crcByte s b ^^^ dStepN 8 d := by
  have h := crcByte_xor s b d 0
  rw [Nat.xor_zero] at h
  rw [h, crcByte_zero_byte]

theorem crcLoop_xor_state (l : List Nat) (s d : Nat) :
    crcLoop (s ^^^ d) l = crcLoop s l ^^^ dStepN (8 * l.length) d := by
  induction l generalizing s d with
  | nil => rfl
  | cons x xs ih =>
      show crcLoop (crcByte (s ^^^ d) x) xs = crcLoop (crcByte s x) xs ^^^ _
      rw [crcByte_xor_state, ih]
      rw [← dStepN_add]
      congr 1
      simp [List.length_cons]
      ring

theorem one_shl (j : Nat) : (1 : Nat) <<< j = 2 ^ j := by
  rw [Nat.shiftLeft_eq, Nat.one_mul]

theorem one_shl_and_bit7_eq_zero {j : Nat} (h : j < 7) : ((1 : Nat) <<< j) &&& 0x80 = 0 := by
  rw [and_bit7, one_shl, Nat.testBit_two_pow]
  simp [Nat.ne_of_lt h]

theorem crcRound_flip_low (s b j : Nat) (h : j < 7) :
    crcRound (s, b ^^^ (1 <<< j)) =
      ((crcRound (s, b)).1, (crcRound (s, b)).2 ^^^ (1 <<< (j + 1))) := by
  rw [crcRound_split, crcRound_split]
  refine Prod.ext ?_ ?_
  · show dStep s ^^^ gbit (b ^^^ (1 <<< j)) = dStep s ^^^ gbit b
    rw [gbit_xor]
    have hg : gbit (1 <<< j) = 0 := by
      unfold gbit
      rw [one_shl_and_bit7_eq_zero h]
      rfl
    rw [hg, Nat.xor_zero]
  · show ((b ^^^ (1 <<< j)) <<< 1) % 256 = ((b <<< 1) % 256) ^^^ (1 <<< (j + 1))
    rw [xor_shl1_mod256]
    congr 1
    interval_cases j <;> rfl

theorem crcRound_flip_top (s b : Nat) :
    crcRound (s, b ^^^ 0x80) =
      ((crcRound (s, b)).1 ^^^ 0x0F9D, (crcRound (s, b)).2) := by
  rw [crcRound_split, crcRound_split]
  refine Prod.ext ?_ ?_
  · show dStep s ^^^ gbit (b ^^^ 0x80) = (dStep s ^^^ gbit b) ^^^ 0x0F9D
    rw [gbit_xor]
    have hg : gbit 0x80 = 0x0F9D := rfl
    rw [hg, Nat.xor_assoc]
  · show ((b ^^^ 0x80) <<< 1) % 256 = (b <<< 1) % 256
    rw [xor_shl1_mod256]
    simp

theorem crcRounds_xor_state (n c d b : Nat) :
    (crcRounds n (c ^^^ d, b)).1 = (crcRounds n (c, b)).1 ^^^ dStepN n d := by
  have h := crcRounds_xor n c b d 0
  rw [Nat.xor_zero] at h
  rw [h, crcRounds_zero_byte]

theorem crcRounds_flip (n : Nat) :
    ∀ j s b, 8 - n ≤ j → j < 8 →
      (crcRounds n (s, b ^^^ (1 <<< j))).1 =
        (crcRounds n (s, b)).1 ^^^ dStepN (n + j - 8) 0x0F9D := by
  induction n with
  | zero => intro j _ _ h1 h2; omega
  | succ m ih =>
      intro j s b h1 h2
      by_cases hj : j = 7
      · subst hj
        show (crcRounds m (crcRound (s, b ^^^ (1 <<< 7)))).1 = (crcRounds m (crcRound (s, b))).1 ^^^ _
        rw [show (1 : Nat) <<< 7 = 0x80 from rfl, crcRound_flip_top]
        rw [crcRounds_xor_state]
        rw [Prod.mk.eta]
        rw [show m + 1 + 7 - 8 = m from by omega]
      · have hj7 : j < 7 := by omega
        show (crcRounds m (crcRound (s, b ^^^ (1 <<< j)))).1 = (crcRounds m (crcRound (s, b))).1 ^^^ _
        rw [crcRound_flip_low s b j hj7]
        have hih := ih (j + 1) (crcRound (s, b)).1 (crcRound (s, b)).2 (by omega) (by omega)
        rw [hih, Prod.mk.eta]
        congr 2
        omega

theorem crcByte_flip (s b j : Nat) (hj : j < 8) :
    crcByte s (b ^^^ (1 <<< j)) = crcByte s b ^^^ dStepN j 0x0F9D := by
  have h := crcRounds_flip 8 j s b (by omega) hj
  rw [show 8 + j - 8 = j from by omega] at h
  exact h

theorem flipBit_cons_succ (x : Nat) (xs : List Nat) (i j : Nat) :
    flipBit (x :: xs) (i + 1) j = x :: flipBit xs i j := by
  simp [flipBit, List.getD_cons_succ, List.set_cons_succ]

theorem flipBit_cons_zero (x : Nat) (xs : List Nat) (j : Nat) :
    flipBit (x :: xs) 0 j = (x ^^^ (1 <<< j)) :: xs := by
  simp [flipBit, List.getD_cons_zero, List.set_cons_zero]

theorem crcLoop_flip (l : List Nat) :
    ∀ i s j, i < l.length → j < 8 →
      crcLoop s (flipBit l i j) =
        crcLoop s l ^^^ dStepN (8 * (l.length - 1 - i) + j) 0x0F9D := by
  induction l with
  | nil => intro i s j h _; simp at h
  | cons x xs ih =>
      intro i s j hi hj
      cases i with
      | zero =>
          rw [flipBit_cons_zero]
          show crcLoop (crcByte s (x ^^^ (1 <<< j))) xs =
            crcLoop (crcByte s x) xs ^^^ dStepN (8 * ((x :: xs).length - 1 - 0) + j) 0x0F9D
          rw [crcByte_flip s x j hj, crcLoop_xor_state, ← dStepN_add]
          rw [show 8 * ((x :: xs).length - 1 - 0) + j = j + 8 * xs.length from by
            simp only [List.length_cons]; omega]
      | succ i' =>
          rw [flipBit_cons_succ]
          show crcLoop (crcByte s x) (flipBit xs i' j) =
            crcLoop (crcByte s x) xs ^^^ dStepN (8 * ((x :: xs).length - 1 - (i' + 1)) + j) 0x0F9D
          rw [ih i' _ j (by simpa using hi) hj]
          rw [show 8 * ((x :: xs).length - 1 - (i' + 1)) + j = 8 * (xs.length - 1 - i') + j from by
            simp only [List.length_cons]; omega]

/-- The 15-bit state of the CheckCrc computation, before comparison with the
residue constant 0x19B7. -/
def crcResidue (bytes : List Nat) : Nat := crcLoop 0x7FFF (bytes.drop 1) &&& 0x7FFF

theorem CheckCrc_eq_residue (bytes : List Nat) :
    CheckCrc bytes = (crcResidue bytes == 0x19B7) := rfl

/-- Syndrome of a single-bit error m bit positions before the end of the
CheckCrc input, at the masked 15-bit level. -/
def syndrome (m : Nat) : Nat := dStepN m 0x0F9D &&& 0x7FFF

theorem residue_flip (b0 : Nat) (rest : List Nat) (i j : Nat)
    (hi : i < rest.length) (hj : j < 8) :
    crcResidue (flipBit (b0 :: rest) (i + 1) j) =
      crcResidue (b0 :: rest) ^^^ syndrome (8 * (rest.length - 1 - i) + j) := by
  unfold crcResidue syndrome
  rw [flipBit_cons_succ]
  simp only [List.drop_succ_cons, List.drop_zero]
  rw [crcLoop_flip rest i 0x7FFF j hi hj]
  rw [Nat.and_xor_distrib_right]

theorem checkCrc_flipBit_zero (b0 : Nat) (rest : List Nat) (j : Nat) :
    CheckCrc (flipBit (b0 :: rest) 0 j) = CheckCrc (b0 :: rest) := by
  rw [flipBit_cons_zero]
  rfl

/-! ## The syndrome table: concrete facts about dStepN needed for the
single-bit-error and repair theorems. -/

/-- synTab n d lists the masked differences d, dStep d, ..., applied n times. -/
def synTab : Nat → Nat → List Nat
  | 0, _ => []
  | n + 1, d => (d &&& 0x7FFF) :: synTab n (dStep d)

/-- The masked syndromes of a single-bit error 0 .. 255 bit positions before
the end of the CheckCrc input. -/
def sTable : List Nat := synTab 256 0x0F9D

/-- Pairwise distinctness check. -/
def allDiff : List Nat → Bool
  | [] => true
  | x :: xs => xs.all (fun y => y != x) && allDiff xs

theorem synTab_length (n d : Nat) : (synTab n d).length = n := by
  induction n generalizing d with
  | zero => rfl
  | succ m ih => simp [synTab, ih]

theorem synTab_getD (m : Nat) :
    ∀ n d, m < n → (synTab n d).getD m 0 = dStepN m d &&& 0x7FFF := by
  induction m with
  | zero =>
      intro n d h
      cases n with
      | zero => omega
      | succ k => rfl
  | succ m' ih =>
      intro n d h
      cases n with
      | zero => omega
      | succ k =>
          show (synTab k (dStep d)).getD m' 0 = _
          rw [ih k (dStep d) (by omega)]
          rfl

theorem syndrome_getD (m : Nat) (h : m < 256) : sTable.getD m 0 = syndrome m :=
  synTab_getD m 256 0x0F9D h

theorem sTable_length : sTable.length = 256 := synTab_length 256 0x0F9D

theorem getD_mem_of_lt {l : List Nat} {i : Nat} (h : i < l.length) : l.getD i 0 ∈ l := by
  rw [List.getD_eq_getElem?_getD, List.getElem?_eq_getElem h]
  simp

theorem syndrome_mem (m : Nat) (h : m < 256) : syndrome m ∈ sTable := by
  rw [← syndrome_getD m h]
  exact getD_mem_of_lt (by rw [sTable_length]; exact h)

theorem sTable_nonzero : sTable.all (fun x => x != 0) = true := by rfl

theorem syndrome_ne_zero {m : Nat} (h : m < 256) : syndrome m ≠ 0 := by
  have hx := List.all_eq_true.mp sTable_nonzero _ (syndrome_mem m h)
  simp only [bne_iff_ne, ne_eq] at hx
  exact hx

theorem allDiff_ne :
    ∀ l : List Nat, allDiff l = true →
      ∀ i k, i < k → k < l.length → l.getD i 0 ≠ l.getD k 0 := by
  intro l
  induction l with
  | nil => intro _ i k _ hk; simp at hk
  | cons x xs ih =>
      intro hall i k hik hk
      have hall2 : xs.all (fun y => y != x) = true ∧ allDiff xs = true := by
        simpa [allDiff, Bool.and_eq_true] using hall
      cases i with
      | zero =>
          cases k with
          | zero => omega
          | succ k' =>
              rw [List.getD_cons_zero, List.getD_cons_succ]
              have hk2 : k' < xs.length := by simpa using hk
              have hm := List.all_eq_true.mp hall2.1 _ (getD_mem_of_lt hk2)
              have hne : xs.getD k' 0 ≠ x := by simpa using hm
              exact fun heq => hne heq.symm
      | succ i' =>
          cases k with
          | zero => omega
          | succ k' =>
              rw [List.getD_cons_succ, List.getD_cons_succ]
              exact ih hall2.2 i' k' (by omega) (by simpa using hk)

theorem sTable_allDiff : allDiff sTable = true := by rfl

theorem syndrome_inj {m1 m2 : Nat} (h1 : m1 < 256) (h2 : m2 < 256) (hne : m1 ≠ m2) :
    syndrome m1 ≠ syndrome m2 := by
  rcases Nat.lt_or_ge m1 m2 with h | h
  · have hx := allDiff_ne sTable sTable_allDiff m1 m2 h (by rw [sTable_length]; exact h2)
    rwa [syndrome_getD m1 h1, syndrome_getD m2 h2] at hx
  · have hlt : m2 < m1 := by omega
    have hx := allDiff_ne sTable sTable_allDiff m2 m1 hlt (by rw [sTable_length]; exact h1)
    rw [syndrome_getD m2 h2, syndrome_getD m1 h1] at hx
    exact fun he => hx he.symm

/-- No syndrome of a pair of adjacent bit errors coincides with the syndrome
of a single bit error (within 256 bit positions of the end). -/
def adjPairCheck : Bool :=
  (List.range 255).all
    (fun m => !(sTable.contains ((sTable.getD (m + 1) 0) ^^^ (sTable.getD m 0))))

theorem adjPairCheck_true : adjPairCheck = true := by rfl

theorem syndrome_adjacent_ne {m1 m : Nat} (h1 : m1 + 1 < 256) (hm : m < 256) :
    syndrome (m1 + 1) ^^^ syndrome m1 ≠ syndrome m := by
  have hmem : m1 ∈ List.range 255 := List.mem_range.mpr (by omega)
  have hall := List.all_eq_true.mp adjPairCheck_true m1 hmem
  rw [syndrome_getD _ h1, syndrome_getD _ (by omega : m1 < 256)] at hall
  have hcont : sTable.contains (syndrome (m1 + 1) ^^^ syndrome m1) = false := by
    simpa using hall
  intro heq
  rw [heq] at hcont
  have hmem2 : syndrome m ∈ sTable := syndrome_mem m hm
  have : sTable.contains (syndrome m) = true := List.elem_iff.mpr hmem2
  rw [this] at hcont
  exact Bool.noConfusion hcont

/-! ## Range invariant: the CRC state always stays below 2 to the 16. -/

theorem xor_lt_65536 {a b : Nat} (ha : a < 65536) (hb : b < 65536) : a ^^^ b < 65536 := by
  have e : (65536 : Nat) = 2 ^ 16 := by norm_num
  rw [e] at ha hb ⊢
  exact Nat.xor_lt_two_pow ha hb

theorem dStep_lt (d : Nat) : dStep d < 65536 := by
  unfold dStep
  have hm : (d <<< 1) % 65536 < 65536 := Nat.mod_lt _ (by norm_num)
  cases hb : (d &&& 0x4000) != 0
  · simpa [hb] using hm
  · simp only [hb, cond_true]
    exact xor_lt_65536 hm (by norm_num)

theorem gbit_lt (b : Nat) : gbit b < 65536 := by
  unfold gbit
  cases hb : (b &&& 0x80) != 0 <;> simp [hb]

theorem crcRound_fst_lt (p : Nat × Nat) : (crcRound p).1 < 65536 := by
  have h := crcRound_split p.1 p.2
  rw [Prod.mk.eta] at h
  rw [h]
  exact xor_lt_65536 (dStep_lt _) (gbit_lt _)

theorem crcRounds_fst_lt (n : Nat) (p : Nat × Nat) (hp : p.1 < 65536) :
    (crcRounds n p).1 < 65536 := by
  induction n generalizing p with
  | zero => exact hp
  | succ m ih => exact ih (crcRound p) (crcRound_fst_lt p)

theorem crcByte_lt (s b : Nat) : crcByte s b < 65536 := by
  show (crcRounds 7 (crcRound (s, b))).1 < 65536
  exact crcRounds_fst_lt 7 _ (crcRound_fst_lt _)

theorem crcLoop_lt (l : List Nat) (s : Nat) (hs : s < 65536) : crcLoop s l < 65536 := by
  induction l generalizing s with
  | nil => exact hs
  | cons x xs ih => exact ih (crcByte s x) (crcByte_lt s x)

/-! ## The CRC residue property: a frame that carries its own _crc value in its
last two bytes always passes CheckCrc with residue 0x19B7. -/

/-- The CheckCrc state after processing the two bytes of the _crc value
computed from state s. -/
def uFinal (s : Nat) : Nat :=
  crcByte (crcByte s (finalizeCrc s >>> 8)) (finalizeCrc s &&& 0xFF)

theorem finalizeCrc_xor (a b : Nat) :
    finalizeCrc (a ^^^ b) = finalizeCrc a ^^^ finalizeCrc b ^^^ finalizeCrc 0 := by
  unfold finalizeCrc
  rw [xor_shl1_mod65536 (a ^^^ b) 0x7FFF, xor_shl1_mod65536 a 0x7FFF,
      xor_shl1_mod65536 b 0x7FFF, xor_shl1_mod65536 a b]
  rw [Nat.zero_xor]
  simp [Nat.xor_assoc, Nat.xor_comm, xor_left_comm, xor_cancel_left]

theorem crcByte_xor3 (x1 y1 x2 y2 x3 y3 : Nat) :
    crcByte (x1 ^^^ x2 ^^^ x3) (y1 ^^^ y2 ^^^ y3) =
      crcByte x1 y1 ^^^ crcByte x2 y2 ^^^ crcByte x3 y3 := by
  rw [crcByte_xor (x1 ^^^ x2) (y1 ^^^ y2) x3 y3, crcByte_xor x1 y1 x2 y2]

theorem uFinal_affine (a b : Nat) : uFinal (a ^^^ b) = uFinal a ^^^ uFinal b ^^^ uFinal 0 := by
  unfold uFinal
  rw [finalizeCrc_xor]
  rw [xor_shiftRight_distrib, xor_shiftRight_distrib]
  rw [Nat.and_xor_distrib_right, Nat.and_xor_distrib_right]
  rw [show a ^^^ b = a ^^^ b ^^^ 0 from by rw [Nat.xor_zero]]
  rw [crcByte_xor3]
  rw [crcByte_xor3]

theorem two_pow_xor_eq_add {n t : Nat} (h : t < 2 ^ n) : 2 ^ n ^^^ t = 2 ^ n + t := by
  apply Nat.eq_of_testBit_eq
  intro i
  rcases Nat.lt_trichotomy i n with hi | hi | hi
  · rw [Nat.testBit_xor, Nat.testBit_two_pow_of_ne (by omega : n ≠ i),
        Nat.testBit_two_pow_add_gt hi]
    simp
  · subst hi
    rw [Nat.testBit_xor, Nat.testBit_two_pow_self, Nat.testBit_two_pow_add_eq,
        Nat.testBit_lt_two_pow h]
    rfl
  · have hpow : (2 : Nat) ^ n < 2 ^ i := Nat.pow_lt_pow_right (by omega) hi
    have h1 : t.testBit i = false := Nat.testBit_lt_two_pow (by omega)
    have h2 : (2 ^ n + t).testBit i = false := by
      apply Nat.testBit_lt_two_pow
      have hp1 : (2 : Nat) ^ (n + 1) ≤ 2 ^ i := Nat.pow_le_pow_right (by omega) (by omega)
      have hp2 : (2 : Nat) ^ (n + 1) = 2 ^ n * 2 := Nat.pow_succ 2 n
      omega
    rw [Nat.testBit_xor, Nat.testBit_two_pow_of_ne (by omega : n ≠ i), h1, h2]
    rfl

theorem uFinal_masked_two_pow : ∀ n, n < 16 → uFinal (2 ^ n) &&& 0x7FFF = 0x19B7 := by decide

theorem uFinal_masked_zero : uFinal 0 &&& 0x7FFF = 0x19B7 := by rfl

theorem uFinal_masked (s : Nat) (hs : s < 65536) : uFinal s &&& 0x7FFF = 0x19B7 := by
  suffices H : ∀ n, n ≤ 16 → ∀ t, t < 2 ^ n → uFinal t &&& 0x7FFF = 0x19B7 by
    refine H 16 le_rfl s ?_
    rw [show (2 : Nat) ^ 16 = 65536 from by norm_num]
    exact hs
  intro n
  induction n with
  | zero =>
      intro _ t ht
      rw [show (2 : Nat) ^ 0 = 1 from rfl] at ht
      rw [show t = 0 from by omega]
      exact uFinal_masked_zero
  | succ m ih =>
      intro hm t ht
      by_cases hlt : t < 2 ^ m
      · exact ih (by omega) t hlt
      · have h2m : 2 ^ m ≤ t := by omega
        have hps : (2 : Nat) ^ (m + 1) = 2 ^ m * 2 := Nat.pow_succ 2 m
        have hsub : t - 2 ^ m < 2 ^ m := by omega
        have hx : t = 2 ^ m ^^^ (t - 2 ^ m) := by
          rw [two_pow_xor_eq_add hsub]
          omega
        rw [hx, uFinal_affine]
        rw [Nat.and_xor_distrib_right, Nat.and_xor_distrib_right]
        rw [uFinal_masked_two_pow m (by omega), ih (by omega) (t - 2 ^ m) hsub,
            uFinal_masked_zero]
        decide

theorem crcLoop_append_two (s hi lo : Nat) (l : List Nat) :
    crcLoop s (l ++ [hi, lo]) = crcByte (crcByte (crcLoop s l) hi) lo := by
  unfold crcLoop
  rw [List.foldl_append]
  rfl

theorem checkCrc_withCrc_aux (bytes : List Nat) (h3 : 3 ≤ bytes.length) :
    CheckCrc (withCrc bytes) = true := by
  have htl : 1 ≤ (bytes.take (bytes.length - 2)).length := by
    rw [List.length_take]
    omega
  unfold CheckCrc withCrc
  rw [List.drop_append_of_le_length htl]
  rw [crcLoop_append_two]
  have hs : crcLoop 0x7FFF ((bytes.take (bytes.length - 2)).drop 1) < 65536 :=
    crcLoop_lt _ _ (by norm_num)
  have hu := uFinal_masked _ hs
  unfold uFinal at hu
  rw [show _crc bytes =
        finalizeCrc (crcLoop 0x7FFF ((bytes.take (bytes.length - 2)).drop 1)) from rfl]
  rw [hu]
  rfl

/-! ## Claim C1 -/

/-- C1: for every byte sequence of size between 3 and 33 octets, overwriting
its last two bytes with the 16-bit value returned by _crc (high byte first)
yields a frame for which CheckCrc returns true, i.e. the 15-bit CRC
(polynomial 0x0F9D, seed 0x7FFF, MSB-first over all bytes except the first,
stored CRC field included) then equals the fixed residue 0x19B7. -/
theorem C1_withCrc_passes_CheckCrc (bytes : List Nat) (h3 : 3 ≤ bytes.length)
    (h33 : bytes.length ≤ 33) : CheckCrc (withCrc bytes) = true :=
  checkCrc_withCrc_aux bytes h3

/-- Witness for C1 at the concrete frame [0x0E, 0x12, 0x34, 0, 0]. -/
theorem C1_withCrc_passes_CheckCrc_witness :
    3 ≤ ([0x0E, 0x12, 0x34, 0, 0] : List Nat).length ∧
    ([0x0E, 0x12, 0x34, 0, 0] : List Nat).length ≤ 33 ∧
    CheckCrc (withCrc [0x0E, 0x12, 0x34, 0, 0]) = true :=
  ⟨by decide, by decide,
    C1_withCrc_passes_CheckCrc [0x0E, 0x12, 0x34, 0, 0] (by decide) (by decide)⟩

/-! ## Claim C2 -/

/-- C2 counterexample: the claim includes the bits of the first (SOF) byte,
but CheckCrc starts its loop at byte 1, so flipping a bit of byte 0 of a
CheckCrc-valid frame leaves CheckCrc true instead of making it false.
Concretely [0x0E, 0, 0] passes CheckCrc and so does its byte-0 bit-0 flip. -/
theorem C2_counterexample :
    CheckCrc [0x0E, 0, 0] = true ∧
    flipBit [0x0E, 0, 0] 0 0 = [0x0F, 0, 0] ∧
    CheckCrc (flipBit [0x0E, 0, 0] 0 0) = true :=
  ⟨by rfl, by rfl, by rfl⟩

/-- C2 (amended): for every frame of size at most 33 for which CheckCrc
returns true, flipping any single bit of a byte other than the first (SOF)
byte, and other than the always-zero least significant bit of the last byte,
makes CheckCrc return false.  (Bits of byte 0 do not enter the CRC at all:
flipping them leaves CheckCrc unchanged.) -/
theorem C2_single_bit_flip_fails (bytes : List Nat) (hlen : bytes.length ≤ 33)
    (hv : CheckCrc bytes = true) (i j : Nat) (h1 : 1 ≤ i) (hi : i < bytes.length)
    (hj : j < 8) (hnot : ¬(i = bytes.length - 1 ∧ j = 0)) :
    CheckCrc (flipBit bytes i j) = false := by
  cases bytes with
  | nil => simp at hi
  | cons b0 rest =>
      obtain ⟨i', rfl⟩ : ∃ i', i = i' + 1 := ⟨i - 1, by omega⟩
      have hi' : i' < rest.length := by
        simp only [List.length_cons] at hi
        omega
      rw [CheckCrc_eq_residue, residue_flip b0 rest i' j hi' hj]
      have hres : crcResidue (b0 :: rest) = 0x19B7 := by
        rw [CheckCrc_eq_residue] at hv
        simpa using hv
      rw [hres]
      have hmlt : 8 * (rest.length - 1 - i') + j < 256 := by
        simp only [List.length_cons] at hlen
        omega
      have hmz : syndrome (8 * (rest.length - 1 - i') + j) ≠ 0 := syndrome_ne_zero hmlt
      simp only [beq_eq_false_iff_ne, ne_eq]
      intro heq
      apply hmz
      have h2 := congrArg (fun x => 0x19B7 ^^^ x) heq
      simpa [xor_cancel_left] using h2

/-- Witness for C2 (amended) at the valid frame [0x0E, 0x12, 0x34, 0x0C, 0x52],
flipping bit 3 of byte 2. -/
theorem C2_single_bit_flip_fails_witness :
    CheckCrc [0x0E, 0x12, 0x34, 0x0C, 0x52] = true ∧
    CheckCrc (flipBit [0x0E, 0x12, 0x34, 0x0C, 0x52] 2 3) = false :=
  ⟨by rfl,
    C2_single_bit_flip_fails [0x0E, 0x12, 0x34, 0x0C, 0x52] (by decide) (by rfl) 2 3
      (by decide) (by decide) (by decide) (by decide)⟩

/-! ## CheckCrcAndRepair, from src/VanBusRx.cpp lines 111-285

The repair search is embedded functionally: a trial flip that fails CheckCrc
is flipped back in the C code, so a failed trial leaves the buffer unchanged;
here each trial is computed on a fresh copy.  The statistics counters and the
wantToCount predicate affect only counters, never the result or the bytes,
and are not modelled. -/

/-- bytes[size - 1] &= 0xFE (line 114). -/
def clearLastBit (bytes : List Nat) : List Nat :=
  bytes.set (bytes.length - 1) ((bytes.getD (bytes.length - 1) 0) &&& 0xFE)

/-- One iteration of the single-flip scan (lines 139-199): at (atByte, atBit),
try the single flip, then additionally the preceding transmitted bit, which is
bit atBit+1 of the same byte, or bit 0 of the previous byte when atBit = 7. -/
def tryAt (bytes : List Nat) : Nat × Nat → Option (List Nat)
  | (atByte, atBit) =>
      let b1 := flipBit bytes atByte atBit
      if CheckCrc b1 then some b1
      else if atBit != 7 then
        let b2 := flipBit b1 atByte (atBit + 1)
        if CheckCrc b2 then some b2 else none
      else
        let b2 := flipBit b1 (atByte - 1) 0
        if CheckCrc b2 then some b2 else none

/-- Scan order of the single-flip loops: atByte = 1 .. size-1, atBit = 0 .. 7. -/
def scanPositions (size : Nat) : List (Nat × Nat) :=
  (List.range' 1 (size - 1)).flatMap
    (fun atByte => (List.range 8).map (fun atBit => (atByte, atBit)))

/-- The single-flip scan over the whole frame (one cycle of the loop at
lines 119-202). -/
def scan1 (bytes : List Nat) : Option (List Nat) :=
  (scanPositions bytes.length).findSome? (tryAt bytes)

/-- The bit positions of one byte at which the two-separate-bits sweep
(lines 205-280) attempts a flip: bits are scanned LSB to MSB; a bit is a
candidate if it equals prevBit and, away from the Manchester positions 3 and
7, differs from the next bit.  The argument n counts the remaining bits, so
the current bit index is 8 - n; prevBit starts at false and is not updated on
the prevBit-mismatch skip, matching the source. -/
def candBitsAux (byte : Nat) : Nat → Bool → List Nat
  | 0, _ => []
  | n + 1, prevBit =>
      let atBit := 8 - (n + 1)
      let currBit := (byte &&& (1 <<< atBit)) != 0
      if prevBit != currBit then candBitsAux byte n prevBit
      else if atBit == 3 || atBit == 7 then atBit :: candBitsAux byte n (!currBit)
      else if currBit == ((byte &&& (1 <<< (atBit + 1))) != 0) then candBitsAux byte n currBit
      else atBit :: candBitsAux byte n currBit

/-- Candidate bits of one byte for the two-separate-bits sweep. -/
def candBits (byte : Nat) : List Nat := candBitsAux byte 8 false

/-- Flip positions attempted by one of the two nested loops of the
two-separate-bits sweep, over bytes fromByte .. size-1 of the given buffer. -/
def phase2Positions (bytes : List Nat) (fromByte : Nat) : List (Nat × Nat) :=
  (List.range' fromByte (bytes.length - fromByte)).flatMap
    (fun atByte => (candBits (bytes.getD atByte 0)).map (fun atBit => (atByte, atBit)))

/-- The two-separate-bits sweep of CheckCrcAndRepair (lines 205-280): the
outer flip positions are computed on the unflipped buffer (every outer flip
is undone before the outer scan advances), the inner positions on the buffer
carrying the outer flip, starting at the outer byte. -/
def phase2 (bytes : List Nat) : Option (List Nat) :=
  (phase2Positions bytes 0).findSome? (fun p1 =>
    let b1 := flipBit bytes p1.1 p1.2
    (phase2Positions b1 p1.1).findSome? (fun p2 =>
      let b2 := flipBit b1 p2.1 p2.2
      if CheckCrc b2 then some b2 else none))

/-- The uncertain-bit flip of cycle i = 1 (lines 125-136): uncertainBit1
counts positions from 1 = MSB of byte 0. -/
def uncertainFlip (bytes : List Nat) (uncertainBit1 : Nat) : List Nat :=
  flipBit bytes ((uncertainBit1 - 1) >>> 3) (7 - ((uncertainBit1 - 1) &&& 0x07))

/-- TVanPacketRxDesc::CheckCrcAndRepair of src/VanBusRx.cpp lines 111-285, as
a function from the byte buffer and the uncertainBit1 field (NO_UNCERTAIN_BIT
= 0) to the returned Boolean and the final buffer contents. -/
def CheckCrcAndRepair (bytes : List Nat) (uncertainBit1 : Nat) : Bool × List Nat :=
  let cleared := clearLastBit bytes
  if CheckCrc cleared then (true, cleared)
  else
    match scan1 cleared with
    | some repaired => (true, repaired)
    | none =>
        match (if uncertainBit1 != 0 then scan1 (uncertainFlip cleared uncertainBit1)
               else none) with
        | some repaired => (true, repaired)
        | none =>
            match phase2 cleared with
            | some repaired => (true, repaired)
            | none => (false, cleared)

/-! ## Lemmas about flipBit and the repair scan -/

theorem xor_cancel_right (a b : Nat) : (a ^^^ b) ^^^ b = a := by
  rw [Nat.xor_assoc, Nat.xor_self, Nat.xor_zero]

theorem xor_eq_zero_iff (a b : Nat) : a ^^^ b = 0 ↔ a = b := by
  constructor
  · intro h
    have h2 := congrArg (fun x => x ^^^ b) h
    simpa [xor_cancel_right, Nat.zero_xor] using h2
  · intro h
    rw [h]
    exact Nat.xor_self b

theorem length_flipBit (l : List Nat) (i j : Nat) : (flipBit l i j).length = l.length := by
  simp [flipBit]

theorem length_clearLastBit (l : List Nat) : (clearLastBit l).length = l.length := by
  simp [clearLastBit]

theorem set_getD_self {l : List Nat} {i : Nat} (h : i < l.length) :
    l.set i (l.getD i 0) = l := by
  apply List.ext_getElem?
  intro n
  by_cases hn : i = n
  · subst hn
    rw [List.getElem?_set_self h]
    rw [List.getD_eq_getElem?_getD, List.getElem?_eq_getElem h]
    rfl
  · rw [List.getElem?_set_ne hn]

theorem getD_set_self {l : List Nat} {i : Nat} (a : Nat) (h : i < l.length) :
    (l.set i a).getD i 0 = a := by
  rw [List.getD_eq_getElem?_getD, List.getElem?_set_self h]
  rfl

theorem flipBit_flipBit {l : List Nat} {i j : Nat} (h : i < l.length) :
    flipBit (flipBit l i j) i j = l := by
  unfold flipBit
  rw [getD_set_self _ h, List.set_set, xor_cancel_right]
  exact set_getD_self h

theorem residue_flip' (bytes : List Nat) (i j : Nat) (h1 : 1 ≤ i)
    (hi : i < bytes.length) (hj : j < 8) :
    crcResidue (flipBit bytes i j) =
      crcResidue bytes ^^^ syndrome (8 * (bytes.length - 1 - i) + j) := by
  cases bytes with
  | nil => simp at hi
  | cons b0 rest =>
      obtain ⟨iq, rfl⟩ : ∃ iq, i = iq + 1 := ⟨i - 1, by omega⟩
      have hiq : iq < rest.length := by
        simp only [List.length_cons] at hi
        omega
      rw [residue_flip b0 rest iq j hiq hj]
      rw [show (b0 :: rest).length - 1 - (iq + 1) = rest.length - 1 - iq from by
        simp only [List.length_cons]; omega]

theorem residue_flip_byte_zero (bytes : List Nat) (j : Nat) (h : bytes ≠ []) :
    crcResidue (flipBit bytes 0 j) = crcResidue bytes := by
  cases bytes with
  | nil => exact absurd rfl h
  | cons b0 rest =>
      rw [flipBit_cons_zero]
      rfl

theorem findSome?_eq_of_unique {a : Type} {b : Type} (L : List a) (f : a → Option b)
    (k : a) (v : b) (hk : k ∈ L) (hfk : f k = some v)
    (hothers : ∀ p, p ∈ L → p ≠ k → f p = none) :
    L.findSome? f = some v := by
  induction L with
  | nil => simp at hk
  | cons x xs ih =>
      rw [List.findSome?_cons]
      by_cases hx : x = k
      · subst hx
        rw [hfk]
      · rw [hothers x (List.mem_cons_self x xs) hx]
        have hk2 : k ∈ xs := by
          rcases List.mem_cons.mp hk with h | h
          · exact absurd h.symm hx
          · exact h
        exact ih hk2 (fun p hp hpk => hothers p (List.mem_cons_of_mem x hp) hpk)

theorem mem_scanPositions {L B b : Nat} (hL : 1 ≤ L) :
    (B, b) ∈ scanPositions L ↔ (1 ≤ B ∧ B < L ∧ b < 8) := by
  unfold scanPositions
  simp only [List.mem_flatMap, List.mem_map, List.mem_range'_1, List.mem_range]
  constructor
  · rintro ⟨B2, ⟨h1, h2⟩, b2, hb2, heq⟩
    obtain ⟨rfl, rfl⟩ : B2 = B ∧ b2 = b := by
      constructor <;> [exact congrArg Prod.fst heq; exact congrArg Prod.snd heq]
    exact ⟨h1, by omega, hb2⟩
  · rintro ⟨h1, h2, h3⟩
    exact ⟨B, ⟨h1, by omega⟩, b, h3, rfl⟩

theorem resid_ne_of_xor1 {s1 : Nat} (h : s1 ≠ 0) : (0x19B7 ^^^ s1 : Nat) ≠ 0x19B7 := by
  intro heq
  apply h
  have h2 := congrArg (fun x => 0x19B7 ^^^ x) heq
  simpa [xor_cancel_left, Nat.xor_self] using h2

theorem resid_ne_of_xor2 {s1 s2 : Nat} (h : s1 ≠ s2) :
    ((0x19B7 ^^^ s1) ^^^ s2 : Nat) ≠ 0x19B7 := by
  intro heq
  apply h
  rw [Nat.xor_assoc] at heq
  have h2 := congrArg (fun x => 0x19B7 ^^^ x) heq
  simp only [xor_cancel_left, Nat.xor_self] at h2
  exact (xor_eq_zero_iff s1 s2).mp h2

theorem resid_ne_of_xor3 {s1 s2 s3 : Nat} (h : s2 ^^^ s3 ≠ s1) :
    (((0x19B7 ^^^ s1) ^^^ s2) ^^^ s3 : Nat) ≠ 0x19B7 := by
  intro heq
  apply h
  rw [Nat.xor_assoc, Nat.xor_assoc] at heq
  have h2 := congrArg (fun x => 0x19B7 ^^^ x) heq
  simp only [xor_cancel_left, Nat.xor_self] at h2
  have h3 := (xor_eq_zero_iff _ _).mp h2
  exact h3.symm

theorem tryAt_eq_none (v : List Nat) (hlen : v.length ≤ 33)
    (hv : crcResidue v = 0x19B7) (i j B b : Nat)
    (h1i : 1 ≤ i) (hi : i < v.length) (hj : j < 8)
    (h1B : 1 ≤ B) (hB : B < v.length) (hb : b < 8)
    (hne : ¬(B = i ∧ b = j)) :
    tryAt (flipBit v i j) (B, b) = none := by
  have hlen1 : (flipBit v i j).length = v.length := length_flipBit v i j
  have hlen2 : (flipBit (flipBit v i j) B b).length = v.length := by
    rw [length_flipBit, hlen1]
  have hm_i : 8 * (v.length - 1 - i) + j < 256 := by omega
  have hm_B : 8 * (v.length - 1 - B) + b < 256 := by omega
  have hmne : 8 * (v.length - 1 - i) + j ≠ 8 * (v.length - 1 - B) + b := by omega
  have hres1 : crcResidue (flipBit (flipBit v i j) B b) =
      (0x19B7 ^^^ syndrome (8 * (v.length - 1 - i) + j)) ^^^
        syndrome (8 * (v.length - 1 - B) + b) := by
    rw [residue_flip' _ B b h1B (by rw [hlen1]; exact hB) hb]
    rw [residue_flip' v i j h1i hi hj, hv, hlen1]
  have hsingle : CheckCrc (flipBit (flipBit v i j) B b) = false := by
    rw [CheckCrc_eq_residue, hres1]
    simp only [beq_eq_false_iff_ne, ne_eq]
    exact resid_ne_of_xor2 (syndrome_inj hm_i hm_B hmne)
  simp only [tryAt]
  rw [hsingle]
  simp only [Bool.false_eq_true, if_false]
  by_cases hb7 : b = 7
  · subst hb7
    simp only [bne_self_eq_false, Bool.false_eq_true, if_false]
    by_cases hB1 : B = 1
    · subst hB1
      have hres2 : crcResidue (flipBit (flipBit (flipBit v i j) 1 7) 0 0) =
          (0x19B7 ^^^ syndrome (8 * (v.length - 1 - i) + j)) ^^^
            syndrome (8 * (v.length - 1 - 1) + 7) := by
        rw [residue_flip_byte_zero _ _ (by
          intro hnil
          rw [hnil] at hlen2
          simp at hlen2
          omega)]
        exact hres1
      have hpair : CheckCrc (flipBit (flipBit (flipBit v i j) 1 7) 0 0) = false := by
        rw [CheckCrc_eq_residue, hres2]
        simp only [beq_eq_false_iff_ne, ne_eq]
        exact resid_ne_of_xor2 (syndrome_inj hm_i hm_B hmne)
      rw [show (1 : Nat) - 1 = 0 from rfl, hpair]
      simp
    · have hB2 : 2 ≤ B := by omega
      have hm2 : 8 * (v.length - 1 - (B - 1)) + 0 = (8 * (v.length - 1 - B) + 7) + 1 := by
        omega
      have hres2 : crcResidue (flipBit (flipBit (flipBit v i j) B 7) (B - 1) 0) =
          ((0x19B7 ^^^ syndrome (8 * (v.length - 1 - i) + j)) ^^^
            syndrome (8 * (v.length - 1 - B) + 7)) ^^^
              syndrome ((8 * (v.length - 1 - B) + 7) + 1) := by
        rw [residue_flip' _ (B - 1) 0 (by omega) (by rw [hlen2]; omega) (by omega)]
        rw [hres1, hlen2, hm2]
      have hadj : (8 * (v.length - 1 - B) + 7) + 1 < 256 := by omega
      have hpair : CheckCrc (flipBit (flipBit (flipBit v i j) B 7) (B - 1) 0) = false := by
        rw [CheckCrc_eq_residue, hres2]
        simp only [beq_eq_false_iff_ne, ne_eq]
        apply resid_ne_of_xor3
        rw [Nat.xor_comm]
        exact syndrome_adjacent_ne hadj hm_i
      rw [hpair]
      simp
  · have hbne : (b != 7) = true := by simpa using hb7
    rw [hbne]
    simp only [if_true]
    have hm2 : 8 * (v.length - 1 - B) + (b + 1) = (8 * (v.length - 1 - B) + b) + 1 := by
      omega
    have hres2 : crcResidue (flipBit (flipBit (flipBit v i j) B b) B (b + 1)) =
        ((0x19B7 ^^^ syndrome (8 * (v.length - 1 - i) + j)) ^^^
          syndrome (8 * (v.length - 1 - B) + b)) ^^^
            syndrome ((8 * (v.length - 1 - B) + b) + 1) := by
      rw [residue_flip' _ B (b + 1) h1B (by rw [hlen2]; exact hB) (by omega)]
      rw [hres1, hlen2, hm2]
    have hadj : (8 * (v.length - 1 - B) + b) + 1 < 256 := by omega
    have hpair : CheckCrc (flipBit (flipBit (flipBit v i j) B b) B (b + 1)) = false := by
      rw [CheckCrc_eq_residue, hres2]
      simp only [beq_eq_false_iff_ne, ne_eq]
      apply resid_ne_of_xor3
      rw [Nat.xor_comm]
      exact syndrome_adjacent_ne hadj hm_i
    rw [hpair]
    simp

theorem tryAt_eq_some (v : List Nat) (hv : CheckCrc v = true) (i j : Nat)
    (hi : i < v.length) :
    tryAt (flipBit v i j) (i, j) = some v := by
  simp only [tryAt]
  rw [flipBit_flipBit hi, hv]
  simp

theorem scan1_single_flip (v : List Nat) (hlen : v.length ≤ 33)
    (hv : CheckCrc v = true) (i j : Nat)
    (h1i : 1 ≤ i) (hi : i < v.length) (hj : j < 8) :
    scan1 (flipBit v i j) = some v := by
  have hres : crcResidue v = 0x19B7 := by
    rw [CheckCrc_eq_residue] at hv
    simpa using hv
  unfold scan1
  rw [length_flipBit]
  apply findSome?_eq_of_unique _ _ (i, j) v
  · exact (mem_scanPositions (by omega)).mpr ⟨h1i, hi, hj⟩
  · exact tryAt_eq_some v hv i j hi
  · rintro ⟨B, b⟩ hp hpne
    have hbounds := (mem_scanPositions (by omega)).mp hp
    apply tryAt_eq_none v hlen hres i j B b h1i hi hj hbounds.1 hbounds.2.1 hbounds.2.2
    intro hc
    apply hpne
    rw [hc.1, hc.2]

theorem getD_set_ne {l : List Nat} {i k : Nat} (a : Nat) (h : i ≠ k) :
    (l.set i a).getD k 0 = l.getD k 0 := by
  rw [List.getD_eq_getElem?_getD, List.getElem?_set_ne h, ← List.getD_eq_getElem?_getD]

theorem even_byte_and_fe : ∀ y, y < 256 → y % 2 = 0 → y &&& 0xFE = y := by decide

theorem even_byte_flip_and_fe :
    ∀ y, y < 256 → ∀ jj, jj < 8 → 1 ≤ jj → y % 2 = 0 →
      (y ^^^ (1 <<< jj)) &&& 0xFE = y ^^^ (1 <<< jj) := by decide

theorem clearLastBit_id {l : List Nat} (hne : 0 < l.length)
    (hlast : l.getD (l.length - 1) 0 &&& 0xFE = l.getD (l.length - 1) 0) :
    clearLastBit l = l := by
  unfold clearLastBit
  rw [hlast]
  exact set_getD_self (by omega)

/-! ## Claim C3 -/

/-- C3 counterexample: [0x0E, 0x8F, 0x9D] passes CheckCrc (its last byte has
least significant bit 1, which CheckCrc does not forbid).  Flipping bit 0 of
byte 1 — a flip the claim covers — gives [0x0E, 0x8E, 0x9D], but
CheckCrcAndRepair then unconditionally clears the last bit, faces a two-bit
corruption its search cannot represent, returns false, and leaves the bytes
at [0x0E, 0x8E, 0x9C], not the original frame. -/
theorem C3_counterexample :
    CheckCrc [0x0E, 0x8F, 0x9D] = true ∧
    flipBit [0x0E, 0x8F, 0x9D] 1 0 = [0x0E, 0x8E, 0x9D] ∧
    CheckCrcAndRepair [0x0E, 0x8E, 0x9D] 0 = (false, [0x0E, 0x8E, 0x9C]) := by
  refine ⟨by rfl, by rfl, by rfl⟩

/-- C3 (amended): for every CheckCrc-valid frame of 3..33 bytes, with byte
values below 256 and with the least significant bit of the last byte zero
(as in every frame whose CRC field was produced by _crc), and for every
single-bit flip excluding the bits of the first byte and the fixed-zero last
bit, CheckCrcAndRepair on the corrupted frame returns true and restores the
frame bit-exactly — whatever the uncertainBit1 marking is. -/
theorem C3_repair_restores (v : List Nat) (h3 : 3 ≤ v.length) (h33 : v.length ≤ 33)
    (hbytes : ∀ x ∈ v, x < 256) (hv : CheckCrc v = true)
    (heven : v.getD (v.length - 1) 0 % 2 = 0)
    (i j u : Nat) (h1i : 1 ≤ i) (hi : i < v.length) (hj : j < 8)
    (hnot : ¬(i = v.length - 1 ∧ j = 0)) :
    CheckCrcAndRepair (flipBit v i j) u = (true, v) := by
  have hres : crcResidue v = 0x19B7 := by
    rw [CheckCrc_eq_residue] at hv
    simpa using hv
  have hlast_lt : v.getD (v.length - 1) 0 < 256 :=
    hbytes _ (getD_mem_of_lt (by omega))
  have hlen1 : (flipBit v i j).length = v.length := length_flipBit v i j
  have hclr : clearLastBit (flipBit v i j) = flipBit v i j := by
    apply clearLastBit_id
    · rw [hlen1]
      omega
    · rw [hlen1]
      by_cases hil : i = v.length - 1
      · subst hil
        have hj1 : 1 ≤ j := by
          rcases Nat.eq_zero_or_pos j with h0 | h0
          · exact absurd ⟨rfl, h0⟩ hnot
          · exact h0
        unfold flipBit
        rw [getD_set_self _ (by omega)]
        exact even_byte_flip_and_fe _ hlast_lt j hj hj1 heven
      · unfold flipBit
        rw [getD_set_ne _ hil]
        exact even_byte_and_fe _ hlast_lt heven
  have hflip_false : CheckCrc (flipBit v i j) = false := by
    rw [CheckCrc_eq_residue, residue_flip' v i j h1i hi hj, hres]
    simp only [beq_eq_false_iff_ne, ne_eq]
    exact resid_ne_of_xor1 (syndrome_ne_zero (by omega))
  have hscan : scan1 (flipBit v i j) = some v :=
    scan1_single_flip v h33 hv i j h1i hi hj
  simp only [CheckCrcAndRepair, hclr, hflip_false, Bool.false_eq_true, if_false, hscan]

/-- Witness for C3 (amended): the valid frame [0x0E, 0x12, 0x34, 0x0C, 0x52]
corrupted at byte 2, bit 3, is repaired back exactly. -/
theorem C3_repair_restores_witness :
    CheckCrc [0x0E, 0x12, 0x34, 0x0C, 0x52] = true ∧
    CheckCrcAndRepair (flipBit [0x0E, 0x12, 0x34, 0x0C, 0x52] 2 3) 0 =
      (true, [0x0E, 0x12, 0x34, 0x0C, 0x52]) :=
  ⟨by rfl,
    C3_repair_restores [0x0E, 0x12, 0x34, 0x0C, 0x52] (by decide) (by decide)
      (by decide) (by rfl) (by decide) 2 3 0 (by decide) (by decide) (by decide)
      (by decide)⟩

/-! ## Claim C9 -/

/-- C9: whenever CheckCrcAndRepair returns false, the bytes on return are the
bytes at entry with only the least significant bit of the last byte cleared:
every trial flip of the repair search has been undone.  (The clearing happens
unconditionally before the first CRC check, so a true-returning call can also
mutate that one bit.) -/
theorem C9_failed_repair_only_clears_last_bit (bytes : List Nat) (u : Nat)
    (hfail : (CheckCrcAndRepair bytes u).1 = false) :
    (CheckCrcAndRepair bytes u).2 = clearLastBit bytes := by
  by_cases h1 : CheckCrc (clearLastBit bytes) = true
  · simp [CheckCrcAndRepair, h1] at hfail
  · cases h2 : scan1 (clearLastBit bytes) with
    | some r => simp [CheckCrcAndRepair, h1, h2] at hfail
    | none =>
        by_cases hu : u = 0
        · cases h4 : phase2 (clearLastBit bytes) with
          | some r => simp [CheckCrcAndRepair, h1, h2, hu, h4] at hfail
          | none => simp [CheckCrcAndRepair, h1, h2, hu, h4]
        · cases h3 : scan1 (uncertainFlip (clearLastBit bytes) u) with
          | some r => simp [CheckCrcAndRepair, h1, h2, hu, h3] at hfail
          | none =>
              cases h4 : phase2 (clearLastBit bytes) with
              | some r => simp [CheckCrcAndRepair, h1, h2, hu, h3, h4] at hfail
              | none => simp [CheckCrcAndRepair, h1, h2, hu, h3, h4]

/-- Witness for C9: on [0x0E, 0x00, 0x0A] the repair search fails, and the
bytes come back unchanged (the last bit was already zero). -/
theorem C9_failed_repair_only_clears_last_bit_witness :
    (CheckCrcAndRepair [0x0E, 0x00, 0x0A] 0).1 = false ∧
    (CheckCrcAndRepair [0x0E, 0x00, 0x0A] 0).2 = clearLastBit [0x0E, 0x00, 0x0A] :=
  ⟨by rfl, C9_failed_repair_only_clears_last_bit [0x0E, 0x00, 0x0A] 0 (by rfl)⟩

/-! ## Receive queue, from src/src/VanBusRx.h

TVanPacketRxDesc (lines 164-296) and TVanPacketRxQueue (lines 338-495).
Pointers into the descriptor pool (_head, tail) are modelled as indices;
fields the C++ constructor leaves uninitialized (size, pool, _head, tail,
end, startDroppingPacketsAt) are modelled as Option with none meaning
uninitialized.  The fixed 33-byte buffer of a descriptor is a 33-element
list; the contents of freshly allocated memory are modelled as zero bytes.
The nIsrs increment of src/VanBusRx.cpp line 490 touches a field that is
declared in neither header of the repository and is not modelled. -/

inductive PacketReadState where
  | VAN_RX_VACANT
  | VAN_RX_SEARCHING
  | VAN_RX_LOADING
  | VAN_RX_WAITING_ACK
  | VAN_RX_DONE
deriving DecidableEq

inductive PacketReadResult where
  | VAN_RX_PACKET_OK
  | VAN_RX_ERROR_NBITS
  | VAN_RX_ERROR_MANCHESTER
  | VAN_RX_ERROR_MAX_PACKET
deriving DecidableEq

inductive PacketAck where
  | VAN_ACK
  | VAN_NO_ACK
deriving DecidableEq

structure TVanPacketRxDesc where
  bytes : List Nat := List.replicate 33 0
  size : Nat := 0
  state : PacketReadState := .VAN_RX_VACANT
  result : PacketReadResult := .VAN_RX_PACKET_OK
  ack : PacketAck := .VAN_NO_ACK
  millis_ : Nat := 0
  seqNo : Nat := 0
  slot : Nat := 0
  uncertainBit1 : Nat := 0
deriving DecidableEq

/-- TVanPacketRxDesc::Init (src/src/VanBusRx.h lines 265-278): resets size,
state, result, ack and uncertainBit1; bytes, seqNo, millis_ and slot keep
their old values. -/
def TVanPacketRxDesc.Init (d : TVanPacketRxDesc) : TVanPacketRxDesc :=
  { d with size := 0, state := .VAN_RX_VACANT, result := .VAN_RX_PACKET_OK,
           ack := .VAN_NO_ACK, uncertainBit1 := 0 }

structure TVanPacketRxQueue where
  pin : Nat := 0xFF
  enabled : Bool := false
  size : Option Nat := none
  pool : Option (List TVanPacketRxDesc) := none
  headIdx : Option Nat := none
  tailIdx : Option Nat := none
  _overrun : Bool := false
  lastMediaAccessAt : Nat := 0
  count : Nat := 0
  nCorrupt : Nat := 0
  nRepaired : Nat := 0
  nOneBitErrors : Nat := 0
  nTwoConsecutiveBitErrors : Nat := 0
  nThreeConsecutiveSameBitErrors : Nat := 0
  nTwoSeparateBitErrors : Nat := 0
  nUncertainBitErrors : Nat := 0
  nQueued : Int := 0
  maxQueued : Int := 0
  startDroppingPacketsAt : Option Int := none
  isEssentialPacket : Option (TVanPacketRxDesc → Bool) := none

/-- The state of VanBusRx straight after the constructor (src/src/VanBusRx.h
lines 344-366): the structure defaults are exactly the initializer list. -/
def vanBusRxCtor : TVanPacketRxQueue := {}

/-- TVanPacketRxQueue::Setup of src/VanBusRx.cpp lines 948-978: fails if the
pin is already assigned, otherwise allocates the pool (default-constructed
descriptors, slot numbers assigned), and points _head and tail at slot 0. -/
def TVanPacketRxQueue.Setup (q : TVanPacketRxQueue) (rxPin : Nat) (queueSize : Nat) :
    Bool × TVanPacketRxQueue :=
  if q.pin != 0xFF then (false, q)
  else
    (true, { q with
      pin := rxPin,
      size := some queueSize,
      pool := some ((List.range queueSize).map (fun k => { slot := k })),
      headIdx := some 0,
      tailIdx := some 0 })

/-- TVanPacketRxQueue::Available (src/src/VanBusRx.h line 369): reads
tail->state with no setup guard.  The none value models the dereference of
the uninitialized tail pointer (or an out-of-range slot). -/
def TVanPacketRxQueue.Available (q : TVanPacketRxQueue) : Option Bool :=
  match q.tailIdx, q.pool with
  | some t, some pool =>
      match pool[t]? with
      | some d => some (d.state == .VAN_RX_DONE)
      | none => none
  | _, _ => none

/-- TVanPacketRxQueue::IsQueueOverrun (src/src/VanBusRx.h line 431):
returns the sticky flag and clears it. -/
def TVanPacketRxQueue.IsQueueOverrun (q : TVanPacketRxQueue) : Bool × TVanPacketRxQueue :=
  (q._overrun, { q with _overrun := false })

/-- Result of TVanPacketRxQueue::Receive: the returned Boolean, the queue
afterwards, the packet copied into the out-parameter (if any), and the value
written through the isQueueOverrun out-pointer (if any). -/
structure ReceiveResult where
  ret : Bool
  queue : TVanPacketRxQueue
  pkt : Option TVanPacketRxDesc
  overrunReported : Option Bool

/-- TVanPacketRxQueue::Receive of src/VanBusRx.cpp lines 982-1004: early
false if Setup was never called; false if nothing available; otherwise copy
the tail packet out, report and clear the overrun flag (when the caller
passed a pointer), re-Init the tail slot and advance tail.  The outer none
models undefined behaviour (a read through an uninitialized pointer). -/
def TVanPacketRxQueue.Receive (q : TVanPacketRxQueue) (wantOverrun : Bool) :
    Option ReceiveResult :=
  if q.pin == 0xFF then some ⟨false, q, none, none⟩
  else
    match q.Available with
    | none => none
    | some false => some ⟨false, q, none, none⟩
    | some true =>
        match q.tailIdx, q.pool, q.size with
        | some t, some pool, some sz =>
            match pool[t]? with
            | some d =>
                some ⟨true,
                  { q with
                    _overrun := if wantOverrun then false else q._overrun,
                    pool := some (pool.set t d.Init),
                    tailIdx := some (if t + 1 = sz then 0 else t + 1),
                    nQueued := q.nQueued - 1 },
                  some d,
                  if wantOverrun then some q._overrun else none⟩
            | none => none
        | _, _, _ => none

/-- TVanPacketRxQueue::Disable of src/VanBusRx.cpp lines 1007-1011: early
return before Setup; the Boolean records whether detachInterrupt ran. -/
def TVanPacketRxQueue.Disable (q : TVanPacketRxQueue) : Bool × TVanPacketRxQueue :=
  if q.pin == 0xFF then (false, q) else (true, q)

/-- TVanPacketRxQueue::Enable of src/VanBusRx.cpp lines 1014-1018: early
return before Setup; the Boolean records whether attachInterrupt ran. -/
def TVanPacketRxQueue.Enable (q : TVanPacketRxQueue) : Bool × TVanPacketRxQueue :=
  if q.pin == 0xFF then (false, q) else (true, q)

/-- TVanPacketRxQueue::GetCount (src/src/VanBusRx.h line 382). -/
def TVanPacketRxQueue.GetCount (q : TVanPacketRxQueue) : Nat := q.count

/-- TVanPacketRxQueue::_AdvanceHead of src/src/VanBusRx.h lines 434-480:
stamp the head descriptor (millis, DONE, seqNo = count++), then either
advance head and bump nQueued/maxQueued — when nQueued is at or below the
drop threshold, or the caller-supplied predicate marks the packet essential —
or drop the just-completed packet by re-initializing the head slot in place.
Reading startDroppingPacketsAt before SetDropPolicy was called (the C++
field is then uninitialized) is modelled as the value 0. -/
def TVanPacketRxQueue._AdvanceHead (q : TVanPacketRxQueue) (now : Nat) : TVanPacketRxQueue :=
  match q.headIdx, q.pool, q.size with
  | some h, some pool, some sz =>
      match pool[h]? with
      | some d =>
          let d2 : TVanPacketRxDesc :=
            { d with millis_ := now, state := .VAN_RX_DONE, seqNo := q.count }
          let essential : Bool :=
            match q.isEssentialPacket with
            | some f => f d2
            | none => false
          if q.nQueued ≤ q.startDroppingPacketsAt.getD 0 ∨ essential = true then
            { q with
              pool := some (pool.set h d2),
              count := (q.count + 1) % 4294967296,
              headIdx := some (if h + 1 = sz then 0 else h + 1),
              nQueued := q.nQueued + 1,
              maxQueued := if q.nQueued + 1 > q.maxQueued then q.nQueued + 1 else q.maxQueued }
          else
            { q with
              pool := some (pool.set h d2.Init),
              count := (q.count + 1) % 4294967296 }
      | none => q
  | _, _, _ => q

/-! ## The edge-interrupt receive decoder, from src/VanBusRx.cpp lines 327-945

Modelled for the ESP8266 reference configuration: CPU_F_FACTOR = 1 (so
CPU_CYCLES(x) = x), default inverted wiring (VAN_BIT_DOMINANT = LOW = 0,
VAN_BIT_RECESSIVE = HIGH = 1), debug instrumentation off.  The hardware
reads (pin level at entry, cycle counter, millis, pin level re-read by the
RETURN macro) are inputs; timer arming has no effect on the modelled state
and is omitted.  The function-local static variables of the ISR are the
RxIsrStatics record, threaded explicitly. -/

def VAN_LOGICAL_LOW : Nat := 0

def VAN_LOGICAL_HIGH : Nat := 1

def VAN_BIT_RECESSIVE : Nat := 1

/-- The inline helper nBits of src/VanBusRx.cpp lines 330-333:
(nCycles + 200) / 667 at the reference clock. -/
def nBits (nCycles : Nat) : Nat := (nCycles + 200) / 667

/-- nBitsTakingIntoAccountJitter of src/VanBusRx.cpp lines 336-388: band
table returning the bit count and the jitter carry-out (the reference
parameter jitter). -/
def nBitsTakingIntoAccountJitter (nCycles : Nat) : Nat × Nat :=
  if nCycles < 482 then (0, if nCycles > 106 then nCycles - 106 else 0)
  else if nCycles < 1293 then (1, if nCycles > 718 then nCycles - 718 else 0)
  else if nCycles < 1893 then (2, if nCycles > 1354 then nCycles - 1354 else 0)
  else if nCycles < 2470 then (3, if nCycles > 2005 then nCycles - 2005 else 0)
  else if nCycles < 3164 then (4, if nCycles > 2639 then nCycles - 2639 else 0)
  else if nCycles < 3795 then (5, if nCycles > 3272 then nCycles - 3272 else 0)
  else
    let nb := nBits nCycles
    (nb, if nCycles > nb * 667 then nCycles - nb * 667 else 0)

/-- The uint32_t cycle difference curr - prev of src/VanBusRx.cpp line 461. -/
def isrMeasuredCycles (curr prev : Nat) : Nat := (curr + 4294967296 - prev) % 4294967296

/-- The state-dependent cycle-count adjustments of src/VanBusRx.cpp
lines 470-482, applied before the bit-count conversion. -/
def isrAdjustCycles (searching : Bool) (nCyclesMeasured jitter : Nat) : Nat :=
  let nCycles := nCyclesMeasured + jitter
  if searching then
    if nCycles > 2240 ∧ nCycles < 2470 then nCycles + 230
    else if nCycles > 600 ∧ nCycles < 800 then nCycles - 30
    else if nCycles > 1100 ∧ nCycles < 1290 then nCycles - 40
    else nCycles
  else
    if nCyclesMeasured > 1010 ∧ nCyclesMeasured < 1293 ∧ jitter > 20 then nCycles + 60
    else nCycles

/-- The tolerated start-of-frame 10-bit patterns of src/VanBusRx.cpp
lines 868-882. -/
def isSofByte (b : Nat) : Bool :=
  b == 0x03D || b == 0x01D || b == 0x039 || b == 0x03B || b == 0x03C || b == 0x01E ||
  b == 0x00D || b == 0x005 || b == 0x001 || b == 0x03F || b == 0x3FD || b == 0x07D

/-- The function-local static variables of RxPinChangeIsr. -/
structure RxIsrStatics where
  prevPinLevel : Nat := 1
  pinLevelChangedDuringInterruptHandling : Bool := false
  prev : Nat := 0
  jitter : Nat := 0
  atBit : Nat := 0
  readBits : Nat := 0
deriving DecidableEq

/-- The hardware reads performed during one ISR invocation. -/
structure IsrInput where
  pinLevel : Nat
  curr : Nat
  millisNow : Nat
  pinLevelAtReturn : Nat
deriving DecidableEq

/-- The RETURN macro of the ISR: records the statics and recomputes
pinLevelChangedDuringInterruptHandling from a fresh pin read. -/
def isrReturnStatics (pinLevel pinLevelAtReturn prevPin prev jitter atBit readBits : Nat) :
    RxIsrStatics :=
  { prevPinLevel := prevPin, prev := prev, jitter := jitter, atBit := atBit,
    readBits := readBits,
    pinLevelChangedDuringInterruptHandling :=
      decide (jitter < 100) && (pinLevelAtReturn != pinLevel) }

/-- The byte-boundary handling of RxPinChangeIsr, src/VanBusRx.cpp
lines 766-945: byte extraction, SOF flexibility, the have-to-be VACANT
fallback, EOD detection, the packet-size limit, and the plain bookkeeping
step when no full 10-bit group has been read yet.  Split out of
RxPinChangeIsr; its parameters are the values the ISR has computed at the
point the source reaches line 766. -/
def rxIsrByteBoundary (q : TVanPacketRxQueue) (pool : List TVanPacketRxDesc) (h : Nat)
    (desc3 : TVanPacketRxDesc) (state : PacketReadState)
    (pinLevel nBits1 nCycles jitter2 prevPin2 atBit2 readBits5 : Nat) (inp : IsrInput) :
    TVanPacketRxQueue × RxIsrStatics :=
  if atBit2 ≥ 10 then
    let atBit3 := atBit2 - 10
    let currentByte := readBits5 >>> atBit3
    let readBits6 := readBits5 &&& ((1 <<< atBit3) - 1)
    if state == .VAN_RX_SEARCHING ∧ isSofByte currentByte = false then
      ({ q with pool := some (pool.set h { desc3 with state := .VAN_RX_VACANT }) },
       isrReturnStatics pinLevel inp.pinLevelAtReturn prevPin2 inp.curr 0
         atBit3 readBits6)
    else
      let currentByte2 := if state == .VAN_RX_SEARCHING then 0x03D else currentByte
      let desc4 :=
        if state == .VAN_RX_SEARCHING then { desc3 with state := .VAN_RX_LOADING }
        else desc3
      let readByte := ((currentByte2 >>> 2) &&& 0xF0) ||| ((currentByte2 >>> 1) &&& 0x0F)
      let desc5 := { desc4 with bytes := desc4.bytes.set desc4.size readByte,
                                size := desc4.size + 1 }
      if (currentByte2 &&& 0x003) == 0 ∧ atBit3 == 0 ∧ desc5.size ≥ 5 ∧
         (nBits1 ≠ 3 ∨ nCycles > 1963) then
        ({ q with pool := some (pool.set h { desc5 with state := .VAN_RX_WAITING_ACK }) },
         isrReturnStatics pinLevel inp.pinLevelAtReturn prevPin2 inp.curr jitter2
           atBit3 readBits6)
      else if desc5.size ≥ 33 then
        (TVanPacketRxQueue._AdvanceHead
           { q with pool := some (pool.set h
               { desc5 with result := .VAN_RX_ERROR_MAX_PACKET }) }
           inp.millisNow,
         isrReturnStatics pinLevel inp.pinLevelAtReturn prevPin2 inp.curr 0
           atBit3 readBits6)
      else
        ({ q with pool := some (pool.set h desc5) },
         isrReturnStatics pinLevel inp.pinLevelAtReturn prevPin2 inp.curr jitter2
           atBit3 readBits6)
  else
    ({ q with pool := some (pool.set h desc3) },
     isrReturnStatics pinLevel inp.pinLevelAtReturn prevPin2 inp.curr jitter2
       atBit2 readBits5)

/-- RxPinChangeIsr of src/VanBusRx.cpp lines 442-945. -/
def RxPinChangeIsr (q0 : TVanPacketRxQueue) (st : RxIsrStatics) (inp : IsrInput) :
    TVanPacketRxQueue × RxIsrStatics :=
  match q0.headIdx, q0.pool with
  | some h, some pool =>
    match pool[h]? with
    | some desc0 =>
      let pinLevel := inp.pinLevel
      let nCyclesMeasured := isrMeasuredCycles inp.curr st.prev
      let state := desc0.state
      let nCycles := isrAdjustCycles (state == .VAN_RX_SEARCHING) nCyclesMeasured st.jitter
      let nbj := nBitsTakingIntoAccountJitter nCycles
      let nBits0 := nbj.1
      let jitter0 := nbj.2
      let samePinLevel := pinLevel == st.prevPinLevel
      let q := if pinLevel == VAN_BIT_RECESSIVE then { q0 with lastMediaAccessAt := inp.curr }
               else q0
      let desc1 :=
        if state == .VAN_RX_WAITING_ACK then
          if st.pinLevelChangedDuringInterruptHandling ∨ nCycles < 650 ∨ nCycles > 1000 then
            { desc0 with state := .VAN_RX_LOADING, ack := .VAN_NO_ACK }
          else
            { desc0 with ack := .VAN_ACK }
        else desc0
      if state == .VAN_RX_VACANT then
        if pinLevel == VAN_LOGICAL_LOW then
          ({ q with pool := some (pool.set h { desc1 with state := .VAN_RX_SEARCHING }) },
           isrReturnStatics pinLevel inp.pinLevelAtReturn pinLevel inp.curr 0
             (if nBits0 == 7 ∨ nBits0 == 8 then nBits0 else 0) 0)
        else
          if nBits0 ≥ 2 then
            ({ q with pool := some (pool.set h { desc1 with state := .VAN_RX_SEARCHING }) },
             isrReturnStatics pinLevel inp.pinLevelAtReturn pinLevel inp.curr
               (if nBits0 > 5 then 0 else jitter0) nBits0 0)
          else
            (q, isrReturnStatics pinLevel inp.pinLevelAtReturn pinLevel inp.curr jitter0
              st.atBit 0)
      else if state == .VAN_RX_DONE then
        ({ q with _overrun := true },
         isrReturnStatics pinLevel inp.pinLevelAtReturn pinLevel inp.curr jitter0
           st.atBit st.readBits)
      else if nBits0 > 10 then
        if state == .VAN_RX_SEARCHING then
          ({ q with pool := some (pool.set h { desc1 with size := 0 }) },
           isrReturnStatics pinLevel inp.pinLevelAtReturn pinLevel inp.curr 0 0 0)
        else
          (TVanPacketRxQueue._AdvanceHead
             { q with pool := some (pool.set h { desc1 with result := .VAN_RX_ERROR_NBITS }) }
             inp.millisNow,
           isrReturnStatics pinLevel inp.pinLevelAtReturn pinLevel inp.curr 0
             st.atBit st.readBits)
      else
        let nBits1 := if nBits0 == 0 ∧ state == .VAN_RX_SEARCHING then 1 else nBits0
        let jitter1 := if nBits0 == 0 ∧ state == .VAN_RX_SEARCHING then 0 else jitter0
        let readBits1 :=
          if nBits0 == 0 ∧ state ≠ .VAN_RX_SEARCHING then
            if pinLevel == VAN_LOGICAL_LOW then st.readBits ||| 0x0001
            else st.readBits &&& 0xFFFE
          else st.readBits
        let flipBits :=
          if nBits0 ≠ 0 ∧ samePinLevel then
            if nBits0 == 1 then 0x0001
            else if nBits0 == 2 then 0x0002
            else ((1 <<< nBits0) - 1 - 1) ||| (if jitter0 > 318 then 0x0001 else 0)
          else 0
        let prevPin2 := if flipBits &&& 0x0001 == 0x0001 then 2 else pinLevel
        let readBits2 := (readBits1 <<< nBits1) % 65536
        let atBit1 := st.atBit + nBits1
        let bitPosition0 := desc1.size * 8 + atBit1
        let bitPosition1 := if atBit1 > 4 then bitPosition0 - 1 else bitPosition0
        let bitPosition := if atBit1 > 9 then bitPosition1 - 1 else bitPosition1
        let readBits3 :=
          if pinLevel == VAN_LOGICAL_LOW then readBits2 ||| ((1 <<< nBits1) - 1) else readBits2
        let desc2 :=
          if flipBits == 0 ∧ nBits1 == 3 ∧ (atBit1 == 5 ∨ atBit1 == 10) ∧
             desc1.uncertainBit1 == 0 then
            { desc1 with uncertainBit1 := bitPosition }
          else desc1
        let readBits4 := if flipBits ≠ 0 then readBits3 ^^^ flipBits else readBits3
        let desc3 :=
          if flipBits ≠ 0 ∧ nBits1 > 1 ∧ desc2.uncertainBit1 == 0 then
            { desc2 with uncertainBit1 := bitPosition }
          else desc2
        let jitter2 :=
          if state == .VAN_RX_SEARCHING then
            if nBits1 == 3 then (if jitter1 > 168 then jitter1 - 168 else 0)
            else if atBit1 == 4 then
              (if nBits1 == 4 then
                (if nCyclesMeasured > 2624 then nCyclesMeasured - 2624 else jitter1)
               else jitter1)
            else if atBit1 == 7 ∨ atBit1 == 8 then
              (if nBits1 == 1 then (if jitter1 > 130 then jitter1 - 130 else 0)
               else if nBits1 == 2 then (if jitter1 > 168 then jitter1 - 168 else 0)
               else if nBits1 == 4 then
                 (if nCyclesMeasured > 2514 then nCyclesMeasured - 2514 else jitter1)
               else jitter1)
            else jitter1
          else jitter1
        let ab :=
          if state == .VAN_RX_SEARCHING then
            if atBit1 == 7 ∧ readBits4 == 0x00D then (10, readBits4)
            else if atBit1 == 8 ∧ (readBits4 &&& 0x00F) == 0x00D then (10, readBits4)
            else if atBit1 == 9 ∧ (readBits4 &&& 0x00E) == 0x00A then (11, readBits4)
            else if atBit1 == 9 ∧ (readBits4 &&& 0x003) == 0x001 then (10, readBits4)
            else if atBit1 == 10 ∧ (readBits4 &&& 0x006) == 0x002 then (11, readBits4)
            else if atBit1 == 12 ∧ (readBits4 &&& 0x018) == 0x008 then (13, readBits4)
            else if atBit1 == 13 ∧ readBits4 == 0x1FF then (atBit1, 0x000)
            else if atBit1 == 14 ∧ readBits4 == 0x3FF then (atBit1, 0x000)
            else (atBit1, readBits4)
          else (atBit1, readBits4)
        let atBit2 := ab.1
        let readBits5 := ab.2
        rxIsrByteBoundary q pool h desc3 state pinLevel nBits1 nCycles jitter2 prevPin2
          atBit2 readBits5 inp
    | none => (q0, st)
  | _, _ => (q0, st)


/-! ## Claims C4-C7: queue behaviour and decoder error shortcuts -/

/-- C4: the drop policy of TVanPacketRxQueue::_AdvanceHead.  When a frame
completes while nQueued exceeds the configured threshold, a frame the
caller-supplied predicate does not mark essential is dropped: head and
nQueued are unchanged and the head slot is re-initialized in place.  A frame
the predicate marks essential is enqueued regardless of the threshold: head
advances (with roll-over at size) and nQueued grows by one. -/
theorem C4_drop_policy (q : TVanPacketRxQueue) (now h sz : Nat) (thr : Int)
    (pool : List TVanPacketRxDesc) (d : TVanPacketRxDesc)
    (f : TVanPacketRxDesc → Bool)
    (hh : q.headIdx = some h) (hp : q.pool = some pool) (hsz : q.size = some sz)
    (hd : pool[h]? = some d) (hthr : q.startDroppingPacketsAt = some thr)
    (hess : q.isEssentialPacket = some f) :
    (q.nQueued > thr →
      f { d with millis_ := now, state := .VAN_RX_DONE, seqNo := q.count } = false →
      (q._AdvanceHead now).headIdx = some h ∧
      (q._AdvanceHead now).nQueued = q.nQueued ∧
      (q._AdvanceHead now).pool = some (pool.set h
        ({ d with millis_ := now, state := .VAN_RX_DONE, seqNo := q.count }).Init)) ∧
    (f { d with millis_ := now, state := .VAN_RX_DONE, seqNo := q.count } = true →
      (q._AdvanceHead now).headIdx = some (if h + 1 = sz then 0 else h + 1) ∧
      (q._AdvanceHead now).nQueued = q.nQueued + 1 ∧
      (q._AdvanceHead now).pool = some (pool.set h
        { d with millis_ := now, state := .VAN_RX_DONE, seqNo := q.count })) := by
  constructor
  · intro hover hness
    simp only [TVanPacketRxQueue._AdvanceHead, hh, hp, hsz, hd, hess, hthr,
      Option.getD_some]
    rw [if_neg]
    · exact ⟨rfl, rfl, rfl⟩
    · rw [hness]
      simp only [Bool.false_eq_true, or_false]
      omega
  · intro hessent
    simp only [TVanPacketRxQueue._AdvanceHead, hh, hp, hsz, hd, hess, hthr,
      Option.getD_some]
    rw [if_pos]
    · exact ⟨rfl, rfl, rfl⟩
    · exact Or.inr hessent

/-- Concrete queue for exercising the drop branch of _AdvanceHead: one
unread packet queued, threshold 0, head descriptor not essential. -/
def c4qA : TVanPacketRxQueue :=
  { pin := 2, size := some 2, pool := some [{}, {}], headIdx := some 0,
    tailIdx := some 0, nQueued := 1, startDroppingPacketsAt := some 0,
    isEssentialPacket := some (fun d => decide (d.size = 7)) }

/-- Concrete queue for exercising the essential-keep branch of _AdvanceHead:
over threshold, head descriptor marked essential by the predicate. -/
def c4qB : TVanPacketRxQueue :=
  { pin := 2, size := some 2, pool := some [{ size := 7 }, {}], headIdx := some 0,
    tailIdx := some 0, nQueued := 5, startDroppingPacketsAt := some 0,
    isEssentialPacket := some (fun d => decide (d.size = 7)) }

/-- Witness: C4_drop_policy evaluated on the two concrete queues. -/
theorem C4_drop_policy_witness :
    (c4qA.nQueued > 0 ∧
     (c4qA._AdvanceHead 5).headIdx = some 0 ∧
     (c4qA._AdvanceHead 5).nQueued = 1 ∧
     (c4qA._AdvanceHead 5).pool = some [{ millis_ := 5 }, {}]) ∧
    (c4qB.nQueued > 0 ∧
     (c4qB._AdvanceHead 5).headIdx = some 1 ∧
     (c4qB._AdvanceHead 5).nQueued = 6 ∧
     (c4qB._AdvanceHead 5).pool =
       some [{ size := 7, state := .VAN_RX_DONE, millis_ := 5 }, {}]) := by
  have A := (C4_drop_policy c4qA 5 0 2 0 [{}, {}] {}
    (fun d => decide (d.size = 7)) rfl rfl rfl rfl rfl rfl).1 (by decide) (by decide)
  have B := (C4_drop_policy c4qB 5 0 2 0 [{ size := 7 }, {}] { size := 7 }
    (fun d => decide (d.size = 7)) rfl rfl rfl rfl rfl rfl).2 (by decide)
  refine ⟨⟨by decide, A.1, A.2.1, ?_⟩, ⟨by decide, ?_, ?_, ?_⟩⟩
  · rw [A.2.2]; decide
  · rw [B.1]; decide
  · rw [B.2.1]; decide
  · rw [B.2.2]; decide

/-- Helper: Receive on a queue whose tail slot is DONE hands the packet out,
reports the current overrun flag through the out-parameter and clears it. -/
theorem Receive_of_done_tail (q : TVanPacketRxQueue) (t sz : Nat)
    (pool : List TVanPacketRxDesc) (dt : TVanPacketRxDesc)
    (hpin : q.pin ≠ 0xFF) (ht : q.tailIdx = some t) (hp : q.pool = some pool)
    (hsz : q.size = some sz) (hdt : pool[t]? = some dt)
    (hstate : dt.state = .VAN_RX_DONE) :
    q.Receive true = some ⟨true,
      { q with _overrun := false,
               pool := some (pool.set t dt.Init),
               tailIdx := some (if t + 1 = sz then 0 else t + 1),
               nQueued := q.nQueued - 1 },
      some dt, some q._overrun⟩ := by
  simp only [TVanPacketRxQueue.Receive, TVanPacketRxQueue.Available, ht, hp, hsz, hdt,
    hstate, beq_self_eq_true, if_true]
  rw [if_neg]
  simpa using hpin

/-- C5 (amended): if an edge arrives while the slot at head is still DONE
(queue completely full), RxPinChangeIsr does NOT produce the frame into that
slot: the pool — hence the unread data — and head, tail and nQueued are
untouched; only the sticky overrun flag is set.  Receive then returns the
old unread tail packet, reports the flag through its out-parameter and
clears it. -/
theorem C5_full_queue_sets_overrun (q : TVanPacketRxQueue) (st : RxIsrStatics)
    (inp : IsrInput) (h t sz : Nat) (pool : List TVanPacketRxDesc)
    (d dt : TVanPacketRxDesc)
    (hh : q.headIdx = some h) (hp : q.pool = some pool) (hd : pool[h]? = some d)
    (hdone : d.state = .VAN_RX_DONE)
    (hpin : q.pin ≠ 0xFF) (hsz : q.size = some sz) (ht : q.tailIdx = some t)
    (hdt : pool[t]? = some dt) (htdone : dt.state = .VAN_RX_DONE) :
    (RxPinChangeIsr q st inp).1.pool = some pool ∧
    (RxPinChangeIsr q st inp).1.headIdx = some h ∧
    (RxPinChangeIsr q st inp).1.tailIdx = some t ∧
    (RxPinChangeIsr q st inp).1.nQueued = q.nQueued ∧
    (RxPinChangeIsr q st inp).1._overrun = true ∧
    ((RxPinChangeIsr q st inp).1.Receive true).map ReceiveResult.ret = some true ∧
    ((RxPinChangeIsr q st inp).1.Receive true).map ReceiveResult.pkt = some (some dt) ∧
    ((RxPinChangeIsr q st inp).1.Receive true).map ReceiveResult.overrunReported =
      some (some true) ∧
    ((RxPinChangeIsr q st inp).1.Receive true).map (fun r => r.queue._overrun) =
      some false := by
  have hisr : (RxPinChangeIsr q st inp).1 =
      { (if inp.pinLevel == VAN_BIT_RECESSIVE then { q with lastMediaAccessAt := inp.curr }
         else q) with _overrun := true } := by
    simp [RxPinChangeIsr, hh, hp, hd, hdone]
  have hpool : (RxPinChangeIsr q st inp).1.pool = some pool := by
    rw [hisr]; cases hc : inp.pinLevel == VAN_BIT_RECESSIVE <;> simp [hc, hp]
  have hhead : (RxPinChangeIsr q st inp).1.headIdx = some h := by
    rw [hisr]; cases hc : inp.pinLevel == VAN_BIT_RECESSIVE <;> simp [hc, hh]
  have htail : (RxPinChangeIsr q st inp).1.tailIdx = some t := by
    rw [hisr]; cases hc : inp.pinLevel == VAN_BIT_RECESSIVE <;> simp [hc, ht]
  have hq : (RxPinChangeIsr q st inp).1.nQueued = q.nQueued := by
    rw [hisr]; cases hc : inp.pinLevel == VAN_BIT_RECESSIVE <;> simp [hc]
  have hov : (RxPinChangeIsr q st inp).1._overrun = true := by
    rw [hisr]
  have hpin' : (RxPinChangeIsr q st inp).1.pin = q.pin := by
    rw [hisr]; cases hc : inp.pinLevel == VAN_BIT_RECESSIVE <;> simp [hc]
  have hsz' : (RxPinChangeIsr q st inp).1.size = some sz := by
    rw [hisr]; cases hc : inp.pinLevel == VAN_BIT_RECESSIVE <;> simp [hc, hsz]
  have hrecv := Receive_of_done_tail (RxPinChangeIsr q st inp).1 t sz pool dt
    (by rw [hpin']; exact hpin) htail hpool hsz' hdt htdone
  refine ⟨hpool, hhead, htail, hq, hov, ?_, ?_, ?_, ?_⟩ <;>
    rw [hrecv] <;> simp [hov]

/-- Concrete completely full receive queue: a single slot, still DONE
(unread by the consumer), with distinctive unread contents (size 6). -/
def c5q : TVanPacketRxQueue :=
  { pin := 2, size := some 1, pool := some [{ state := .VAN_RX_DONE, size := 6 }],
    headIdx := some 0, tailIdx := some 0, nQueued := 1,
    startDroppingPacketsAt := some 50 }

/-- Concrete edge for the full-queue scenario: a falling edge one bit time
after the previous one. -/
def c5inp : IsrInput := { pinLevel := 0, curr := 700, millisNow := 3,
                          pinLevelAtReturn := 0 }

/-- C5 counterexample: on the concrete full queue the edge does not
overwrite the unread slot (the pool is bit-identical), refuting the claim
that the incoming frame is still produced into the DONE slot; the sticky
overrun flag is set. -/
theorem C5_counterexample :
    (RxPinChangeIsr c5q {} c5inp).1.pool = c5q.pool ∧
    (RxPinChangeIsr c5q {} c5inp).1.headIdx = c5q.headIdx ∧
    (RxPinChangeIsr c5q {} c5inp).1._overrun = true ∧
    c5q._overrun = false := by decide

/-- Witness: C5_full_queue_sets_overrun evaluated on the concrete full
queue. -/
theorem C5_full_queue_sets_overrun_witness :
    (RxPinChangeIsr c5q {} c5inp).1.pool = some [{ state := .VAN_RX_DONE, size := 6 }] ∧
    (RxPinChangeIsr c5q {} c5inp).1._overrun = true ∧
    ((RxPinChangeIsr c5q {} c5inp).1.Receive true).map ReceiveResult.ret = some true ∧
    ((RxPinChangeIsr c5q {} c5inp).1.Receive true).map ReceiveResult.overrunReported =
      some (some true) ∧
    ((RxPinChangeIsr c5q {} c5inp).1.Receive true).map (fun r => r.queue._overrun) =
      some false := by
  have A := C5_full_queue_sets_overrun c5q {} c5inp 0 0 1
    [{ state := .VAN_RX_DONE, size := 6 }] { state := .VAN_RX_DONE, size := 6 }
    { state := .VAN_RX_DONE, size := 6 } rfl rfl rfl rfl (by decide) rfl rfl rfl rfl
  exact ⟨A.1, A.2.2.2.2.1, A.2.2.2.2.2.1, A.2.2.2.2.2.2.2.1, A.2.2.2.2.2.2.2.2⟩

/-- C6: operational methods called before Setup.  Receive, Disable and
Enable are guarded by the pin check and fail as no-ops, and GetCount reads
an initialized counter; but Available has no guard: on the
freshly constructed queue it dereferences the uninitialized tail pointer
(the embedding returns none for that undefined behaviour), so the claim
that no operational method exhibits undefined behaviour fails. -/
theorem C6_before_setup :
    vanBusRxCtor.Available = none ∧
    vanBusRxCtor.Receive true = some ⟨false, vanBusRxCtor, none, none⟩ ∧
    vanBusRxCtor.Disable = (false, vanBusRxCtor) ∧
    vanBusRxCtor.Enable = (false, vanBusRxCtor) ∧
    vanBusRxCtor.GetCount = 0 :=
  ⟨rfl, rfl, rfl, rfl, rfl⟩

/-- Helper: _AdvanceHead when no drop-policy predicate is installed and
nQueued is at or below the threshold: the completed frame is stamped and
enqueued. -/
theorem advanceHead_no_drop (q : TVanPacketRxQueue) (now h sz : Nat) (thr : Int)
    (pool : List TVanPacketRxDesc) (d : TVanPacketRxDesc)
    (hh : q.headIdx = some h) (hp : q.pool = some pool) (hsz : q.size = some sz)
    (hd : pool[h]? = some d) (hthr : q.startDroppingPacketsAt = some thr)
    (hness : q.isEssentialPacket = none) (hkeep : q.nQueued ≤ thr) :
    (q._AdvanceHead now).pool = some (pool.set h
      { d with millis_ := now, state := .VAN_RX_DONE, seqNo := q.count }) ∧
    (q._AdvanceHead now).nQueued = q.nQueued + 1 ∧
    (q._AdvanceHead now).headIdx = some (if h + 1 = sz then 0 else h + 1) := by
  simp only [TVanPacketRxQueue._AdvanceHead, hh, hp, hsz, hd, hness, hthr,
    Option.getD_some]
  rw [if_pos (Or.inl hkeep)]
  exact ⟨rfl, rfl, rfl⟩

/-- Helper: _AdvanceHead applied to a queue whose pool is the original pool
with slot h replaced: the stamped descriptor lands in slot h and nQueued
grows by one. -/
theorem advanceHead_after_set (q qb : TVanPacketRxQueue) (now h sz : Nat) (thr : Int)
    (pool : List TVanPacketRxDesc) (d5 : TVanPacketRxDesc)
    (hlt : h < pool.length)
    (h1 : qb.headIdx = some h) (h2 : qb.size = some sz)
    (h3 : qb.startDroppingPacketsAt = some thr) (h4 : qb.isEssentialPacket = none)
    (h5 : qb.nQueued = q.nQueued) (h6 : qb.count = q.count)
    (h7 : qb.pool = some (pool.set h d5)) (hkeep : q.nQueued ≤ thr) :
    (qb._AdvanceHead now).pool = some (pool.set h
      { d5 with millis_ := now, state := .VAN_RX_DONE, seqNo := q.count }) ∧
    (qb._AdvanceHead now).nQueued = q.nQueued + 1 := by
  have hB := advanceHead_no_drop qb now h sz thr (pool.set h d5) d5
    h1 h7 h2 (by rw [List.getElem?_set_self hlt]) h3 h4 (by rw [h5]; exact hkeep)
  refine ⟨?_, by rw [hB.2.1, h5]⟩
  rw [hB.1, List.set_set, h6]

/-- C7 (amended): the decoder error shortcuts.  (1) An interval of more than
10 bits during SEARCHING resets size, readBits and atBit but the slot STAYS
in SEARCHING (the spec wrongly says VACANT).  (2) The same during LOADING
sets result ERROR_NBITS and completes the frame (state DONE, enqueued).
(3) When the byte count reaches the 33-byte maximum without the EOD pattern,
the byte-boundary handler sets result ERROR_MAX_PACKET and completes the
frame. -/
theorem C7_error_shortcuts (q : TVanPacketRxQueue) (st : RxIsrStatics) (inp : IsrInput)
    (h sz : Nat) (thr : Int) (pool : List TVanPacketRxDesc) (d : TVanPacketRxDesc)
    (hh : q.headIdx = some h) (hp : q.pool = some pool) (hd : pool[h]? = some d)
    (hsz : q.size = some sz) (hthr : q.startDroppingPacketsAt = some thr)
    (hness : q.isEssentialPacket = none) (hkeep : q.nQueued ≤ thr) :
    (d.state = .VAN_RX_SEARCHING →
     (nBitsTakingIntoAccountJitter (isrAdjustCycles true
        (isrMeasuredCycles inp.curr st.prev) st.jitter)).1 > 10 →
     (RxPinChangeIsr q st inp).1.pool = some (pool.set h { d with size := 0 }) ∧
     ({ d with size := 0 } : TVanPacketRxDesc).state = .VAN_RX_SEARCHING ∧
     (RxPinChangeIsr q st inp).2.readBits = 0 ∧
     (RxPinChangeIsr q st inp).2.atBit = 0) ∧
    (d.state = .VAN_RX_LOADING →
     (nBitsTakingIntoAccountJitter (isrAdjustCycles false
        (isrMeasuredCycles inp.curr st.prev) st.jitter)).1 > 10 →
     (RxPinChangeIsr q st inp).1.pool = some (pool.set h
       { d with result := .VAN_RX_ERROR_NBITS, millis_ := inp.millisNow,
                state := .VAN_RX_DONE, seqNo := q.count }) ∧
     (RxPinChangeIsr q st inp).1.nQueued = q.nQueued + 1) ∧
    (∀ (dc : TVanPacketRxDesc)
       (pinLevel nBits1 nCycles jitter2 prevPin2 atBit2 readBits5 : Nat),
      atBit2 ≥ 10 →
      ¬(((readBits5 >>> (atBit2 - 10)) &&& 0x003) == 0 ∧ (atBit2 - 10) == 0 ∧
        dc.size + 1 ≥ 5 ∧ (nBits1 ≠ 3 ∨ nCycles > 1963)) →
      dc.size + 1 ≥ 33 →
      (rxIsrByteBoundary q pool h dc .VAN_RX_LOADING pinLevel nBits1 nCycles jitter2
         prevPin2 atBit2 readBits5 inp).1.pool = some (pool.set h
        { dc with
            bytes := dc.bytes.set dc.size
                ((((readBits5 >>> (atBit2 - 10)) >>> 2) &&& 0xF0) |||
                  (((readBits5 >>> (atBit2 - 10)) >>> 1) &&& 0x0F)),
            size := dc.size + 1,
            result := .VAN_RX_ERROR_MAX_PACKET, millis_ := inp.millisNow,
            state := .VAN_RX_DONE, seqNo := q.count }) ∧
      (rxIsrByteBoundary q pool h dc .VAN_RX_LOADING pinLevel nBits1 nCycles jitter2
         prevPin2 atBit2 readBits5 inp).1.nQueued = q.nQueued + 1) := by
  have hlt : h < pool.length := by
    by_contra hge
    rw [List.getElem?_eq_none (by omega)] at hd
    exact Option.noConfusion hd
  refine ⟨?_, ?_, ?_⟩
  · intro hstate hnb
    simp [RxPinChangeIsr, hh, hp, hd, hstate, hnb, isrReturnStatics]
  · intro hstate hnb
    cases hc : inp.pinLevel == VAN_BIT_RECESSIVE <;>
      simp [RxPinChangeIsr, hh, hp, hd, hstate, hnb, hc,
        show (PacketReadState.VAN_RX_LOADING == PacketReadState.VAN_RX_SEARCHING) = false
          from rfl] <;>
      exact advanceHead_after_set q _ inp.millisNow h sz thr pool
        { d with state := .VAN_RX_LOADING, result := .VAN_RX_ERROR_NBITS }
        hlt rfl hsz hthr hness rfl rfl rfl hkeep
  · intro dc pinLevel nBits1 nCycles jitter2 prevPin2 atBit2 readBits5
      hge10 hno_eod hsize33
    simp only [rxIsrByteBoundary,
      show (PacketReadState.VAN_RX_LOADING == PacketReadState.VAN_RX_SEARCHING) = false
        from rfl,
      Bool.false_eq_true, false_and, if_false]
    rw [if_pos hge10]
    rw [if_neg (show ¬(((readBits5 >>> (atBit2 - 10)) &&& 0x003) == 0 ∧
          (atBit2 - 10) == 0 ∧ dc.size + 1 ≥ 5 ∧ (nBits1 ≠ 3 ∨ nCycles > 1963))
        from hno_eod)]
    rw [if_pos (show dc.size + 1 ≥ 33 from hsize33)]
    exact advanceHead_after_set q _ inp.millisNow h sz thr pool
      { dc with
          bytes := dc.bytes.set dc.size
              ((((readBits5 >>> (atBit2 - 10)) >>> 2) &&& 0xF0) |||
                (((readBits5 >>> (atBit2 - 10)) >>> 1) &&& 0x0F)),
          size := dc.size + 1, result := .VAN_RX_ERROR_MAX_PACKET }
      hlt hh hsz hthr hness rfl rfl rfl hkeep

/-- Concrete queue whose head slot is mid-SEARCHING when an over-long
interval arrives. -/
def c7q : TVanPacketRxQueue :=
  { pin := 2, size := some 2,
    pool := some [{ state := .VAN_RX_SEARCHING, size := 2 }, {}],
    headIdx := some 0, tailIdx := some 0, nQueued := 0,
    startDroppingPacketsAt := some 10 }

/-- The same queue with the head slot in LOADING instead. -/
def c7qb : TVanPacketRxQueue :=
  { pin := 2, size := some 2,
    pool := some [{ state := .VAN_RX_LOADING, size := 2 }, {}],
    headIdx := some 0, tailIdx := some 0, nQueued := 0,
    startDroppingPacketsAt := some 10 }

/-- ISR statics with some accumulated bits. -/
def c7st : RxIsrStatics :=
  { prevPinLevel := 1, prev := 0, jitter := 0, atBit := 3, readBits := 5 }

/-- An edge 8000 CPU cycles after the previous one: twelve bit times. -/
def c7inp : IsrInput :=
  { pinLevel := 0, curr := 8000, millisNow := 7, pinLevelAtReturn := 0 }

/-- C7 counterexample: on a concrete SEARCHING frame an over-long interval
leaves the head slot in SEARCHING, not VACANT as the claim states. -/
theorem C7_counterexample :
    ((RxPinChangeIsr c7q c7st c7inp).1.pool.map
        (fun pool => pool.map (fun dd => dd.state))) =
      some [.VAN_RX_SEARCHING, .VAN_RX_VACANT] ∧
    PacketReadState.VAN_RX_SEARCHING ≠ .VAN_RX_VACANT := by decide

/-- Witness: C7_error_shortcuts evaluated on concrete queues for all three
shortcut paths. -/
theorem C7_error_shortcuts_witness :
    ((RxPinChangeIsr c7q c7st c7inp).1.pool = some [{ state := .VAN_RX_SEARCHING }, {}] ∧
     (RxPinChangeIsr c7q c7st c7inp).2.readBits = 0 ∧
     (RxPinChangeIsr c7q c7st c7inp).2.atBit = 0) ∧
    ((RxPinChangeIsr c7qb c7st c7inp).1.pool = some
       [{ size := 2, state := .VAN_RX_DONE, result := .VAN_RX_ERROR_NBITS,
          millis_ := 7 }, {}] ∧
     (RxPinChangeIsr c7qb c7st c7inp).1.nQueued = 1) ∧
    ((rxIsrByteBoundary c7qb [{ state := .VAN_RX_LOADING, size := 2 }, {}] 0
        { size := 32 } .VAN_RX_LOADING 0 1 700 0 0 10 0x3FF c7inp).1.pool = some
       [{ bytes := (List.replicate 33 0).set 32 255, size := 33,
          state := .VAN_RX_DONE, result := .VAN_RX_ERROR_MAX_PACKET,
          millis_ := 7 }, {}] ∧
     (rxIsrByteBoundary c7qb [{ state := .VAN_RX_LOADING, size := 2 }, {}] 0
        { size := 32 } .VAN_RX_LOADING 0 1 700 0 0 10 0x3FF c7inp).1.nQueued = 1) := by
  have A := C7_error_shortcuts c7q c7st c7inp 0 2 10
    [{ state := .VAN_RX_SEARCHING, size := 2 }, {}]
    { state := .VAN_RX_SEARCHING, size := 2 } rfl rfl rfl rfl rfl rfl (by decide)
  have B := C7_error_shortcuts c7qb c7st c7inp 0 2 10
    [{ state := .VAN_RX_LOADING, size := 2 }, {}]
    { state := .VAN_RX_LOADING, size := 2 } rfl rfl rfl rfl rfl rfl (by decide)
  have ha := A.1 rfl (by decide)
  have hb := B.2.1 rfl (by decide)
  have hcc := B.2.2 { size := 32 } 0 1 700 0 0 10 0x3FF (by decide) (by decide) (by decide)
  refine ⟨⟨?_, ha.2.2.1, ha.2.2.2⟩, ⟨?_, ?_⟩, ⟨?_, ?_⟩⟩
  · rw [ha.1]; decide
  · rw [hb.1]; decide
  · rw [hb.2]; decide
  · rw [hcc.1]; decide
  · rw [hcc.2]; decide


/-! ## The packet transmitter, from src/src/VanBusTx.cpp (v0.4.1) and
src/src/VanBusTx.h

PreparePacket is modelled for the frame-building part; the n field (a copy
of the transmit counter), the raw pointers p_eod and p_last, and the
collision statistics are not part of the model. -/

inductive PacketWriteState where
  | VAN_TX_WAITING
  | VAN_TX_SENDING
  | VAN_TX_DONE
deriving DecidableEq

/-- TVanPacketTxDesc of src/src/VanBusTx.h lines 35-76, reduced to the
fields PreparePacket writes: the stuffed 10-bit groups, the EOD position,
the size in groups and the transmit state. -/
structure TVanPacketTxDesc where
  stuffedBytes : List Nat := []
  eodAt : Nat := 0
  size : Nat := 0
  state : PacketWriteState := .VAN_TX_DONE
deriving DecidableEq

/-- The Manchester stuffing of one byte, src/src/VanBusTx.cpp line 188:
(byte & 0xF0) << 2 | (~byte & 0x10) << 1 | (byte & 0x0F) << 1 | (~byte & 0x01);
a 10-bit group with the complemented check bit after each nibble.  The C++
operand is a uint8_t, so the complement is the 8-bit one. -/
def stuffByte (byte : Nat) : Nat :=
  ((byte &&& 0xF0) <<< 2) ||| (((byte ^^^ 0xFF) &&& 0x10) <<< 1) |||
    ((byte &&& 0x0F) <<< 1) ||| ((byte ^^^ 0xFF) &&& 0x01)

/-- The receiver's extraction of the 8 data bits out of a 10-bit group,
src/VanBusRx.cpp line 901: (g >> 2 & 0xF0) | (g >> 1 & 0x0F). -/
def unstuffByte (g : Nat) : Nat := ((g >>> 2) &&& 0xF0) ||| ((g >>> 1) &&& 0x0F)

/-- The first dataLen + 3 frame bytes assembled by PreparePacket,
src/src/VanBusTx.cpp lines 176-179: SOF 0x0E, the IDEN high byte, the
IDEN-low/fixed-1/COM byte (a uint8_t store, hence the mod 256), then the
payload truncated to VAN_MAX_DATA_BYTES = 28. -/
def prePayload (iden cmdFlags : Nat) (data : List Nat) : List Nat :=
  [0x0E, (iden >>> 4) &&& 0xFF,
   ((iden <<< 4) ||| 0x08 ||| (cmdFlags &&& 0x07)) % 256] ++
    data.take (if data.length > 28 then 28 else data.length)

/-- The plain (unstuffed) frame PreparePacket builds, lines 176-182: the
prefix above with the two _crc bytes appended, high byte first.  The two
zero placeholders stand for the two CRC slots that are still unwritten at
the moment _crc is called over the buffer; _crc never reads them. -/
def prepareBytes (iden cmdFlags : Nat) (data : List Nat) : List Nat :=
  withCrc (prePayload iden cmdFlags data ++ [0, 0])

/-- TVanPacketTxDesc::PreparePacket of src/src/VanBusTx.cpp lines 165-203
(after its Init call): caps the payload at 28 bytes, stuffs every frame
byte, clears the last two bits of the final CRC group as the EOD marker,
and appends the all-recessive ACK/EOF group 0xFFFF. -/
def TVanPacketTxDesc.PreparePacket (iden cmdFlags : Nat) (data : List Nat) :
    TVanPacketTxDesc :=
  let dataLen := if data.length > 28 then 28 else data.length
  let stuffed0 := (prepareBytes iden cmdFlags data).map stuffByte
  let stuffed1 := stuffed0.set (dataLen + 4) ((stuffed0.getD (dataLen + 4) 0) &&& 0xFFFC)
  { stuffedBytes := stuffed1 ++ [0xFFFF],
    eodAt := dataLen + 5,
    size := dataLen + 5 + 1,
    state := .VAN_TX_WAITING }

/-- The transmitted frame as the receiver's byte extraction sees it: the
10-bit groups up to the EOD position, each unstuffed. -/
def unstuffedFrame (d : TVanPacketTxDesc) : List Nat :=
  (d.stuffedBytes.take d.eodAt).map unstuffByte

/-- Iden() of src/src/VanBusRx.h line 182, over a plain byte list:
bytes[1] << 4 | bytes[2] >> 4. -/
def IdenOf (bytes : List Nat) : Nat :=
  ((bytes.getD 1 0) <<< 4) ||| ((bytes.getD 2 0) >>> 4)

/-- CommandFlags() of src/VanBusRx.cpp lines 47-56, over a plain byte list:
bytes[2] & 0x0F. -/
def CommandFlagsOf (bytes : List Nat) : Nat := (bytes.getD 2 0) &&& 0x0F

/-- Data() and DataLen() of src/VanBusRx.cpp lines 59-69, over a plain byte
list: the size - 5 bytes after SOF, IDEN and COM. -/
def DataOf (bytes : List Nat) : List Nat := (bytes.drop 3).take (bytes.length - 5)

theorem unstuff_stuff : ∀ b, b < 256 → unstuffByte (stuffByte b) = b := by decide

theorem unstuff_stuff_masked : ∀ b, b < 256 → b % 2 = 0 →
    unstuffByte (stuffByte b &&& 0xFFFC) = b := by decide

theorem map_unstuff_stuff (l : List Nat) (h : ∀ b ∈ l, b < 256) :
    (l.map stuffByte).map unstuffByte = l := by
  induction l with
  | nil => rfl
  | cons x xs ih =>
      simp only [List.map_cons, List.cons.injEq]
      exact ⟨unstuff_stuff x (h x (List.mem_cons_self x xs)),
        ih (fun b hb => h b (List.mem_cons_of_mem x hb))⟩

theorem getD_append_last (l : List Nat) (x : Nat) : (l ++ [x]).getD l.length 0 = x := by
  induction l with
  | nil => rfl
  | cons y ys ih => simp [ih]

theorem set_append_last (l : List Nat) (x v : Nat) :
    (l ++ [x]).set l.length v = l ++ [v] := by
  induction l with
  | nil => rfl
  | cons y ys ih => simp [ih]

theorem take_append_self (l l2 : List Nat) : (l ++ l2).take l.length = l := by
  induction l with
  | nil => rfl
  | cons x xs ih => simp [ih]

theorem finalizeCrc_mod_two (s : Nat) : finalizeCrc s % 2 = 0 := by
  unfold finalizeCrc
  rw [Nat.shiftLeft_eq, pow_one]
  omega

theorem crc_mod_two (bytes : List Nat) : _crc bytes % 2 = 0 := finalizeCrc_mod_two _

theorem crc_lt_65536 (bytes : List Nat) : _crc bytes < 65536 := by
  unfold _crc finalizeCrc
  exact Nat.mod_lt _ (by norm_num)

theorem crc_hi_lt (bytes : List Nat) : _crc bytes >>> 8 < 256 := by
  have h := crc_lt_65536 bytes
  rw [Nat.shiftRight_eq_div_pow]
  have h2 : (2 : Nat) ^ 8 = 256 := by norm_num
  rw [h2]
  omega

theorem and_ff_mod_two (c : Nat) : (c &&& 0xFF) % 2 = c % 2 := by
  rw [← Nat.and_one_is_mod, ← Nat.and_one_is_mod, Nat.and_assoc]
  norm_num

theorem prepareBytes_eq (iden cmdFlags : Nat) (data : List Nat) :
    prepareBytes iden cmdFlags data =
      prePayload iden cmdFlags data ++
        [_crc (prePayload iden cmdFlags data ++ [0, 0]) >>> 8,
         _crc (prePayload iden cmdFlags data ++ [0, 0]) &&& 0xFF] := by
  unfold prepareBytes withCrc
  have h : (prePayload iden cmdFlags data ++ [0, 0]).length - 2 =
      (prePayload iden cmdFlags data).length := by simp
  rw [h, take_append_self]

theorem prePayload_length (iden cmdFlags : Nat) (data : List Nat) :
    (prePayload iden cmdFlags data).length =
      3 + (if data.length > 28 then 28 else data.length) := by
  simp only [prePayload, List.length_append, List.length_cons, List.length_take,
    List.length_nil]
  split <;> omega

theorem prePayload_lt (iden cmdFlags : Nat) (data : List Nat)
    (hdata : ∀ b ∈ data, b < 256) : ∀ b ∈ prePayload iden cmdFlags data, b < 256 := by
  intro b hb
  unfold prePayload at hb
  rcases List.mem_append.mp hb with h | h
  · rcases List.mem_cons.mp h with rfl | h
    · norm_num
    rcases List.mem_cons.mp h with rfl | h
    · exact lt_of_le_of_lt Nat.and_le_right (by norm_num)
    rcases List.mem_cons.mp h with rfl | h
    · exact Nat.mod_lt _ (by norm_num)
    · exact absurd h (List.not_mem_nil b)
  · exact hdata b (List.take_subset _ _ h)

theorem unstuffedFrame_PreparePacket (iden cmdFlags : Nat) (data : List Nat)
    (hdata : ∀ b ∈ data, b < 256) :
    unstuffedFrame (TVanPacketTxDesc.PreparePacket iden cmdFlags data) =
      prepareBytes iden cmdFlags data := by
  obtain ⟨pre, hpre⟩ : ∃ p, prePayload iden cmdFlags data = p := ⟨_, rfl⟩
  have hplen : pre.length = 3 + (if data.length > 28 then 28 else data.length) := by
    rw [← hpre]; exact prePayload_length _ _ _
  have hpre256 : ∀ b ∈ pre, b < 256 := by
    rw [← hpre]; exact prePayload_lt _ _ _ hdata
  obtain ⟨crc, hcrc⟩ : ∃ c, _crc (pre ++ [0, 0]) = c := ⟨_, rfl⟩
  have hprep : prepareBytes iden cmdFlags data = pre ++ [crc >>> 8, crc &&& 0xFF] := by
    rw [prepareBytes_eq, hpre, hcrc]
  have hhi : crc >>> 8 < 256 := by rw [← hcrc]; exact crc_hi_lt _
  have hlo : crc &&& 0xFF < 256 := lt_of_le_of_lt Nat.and_le_right (by norm_num)
  have hloeven : (crc &&& 0xFF) % 2 = 0 := by
    rw [and_ff_mod_two, ← hcrc]; exact crc_mod_two _
  obtain ⟨L, hLL⟩ : ∃ l, (if data.length > 28 then 28 else data.length) = l := ⟨_, rfl⟩
  rw [hLL] at hplen
  simp only [TVanPacketTxDesc.PreparePacket, unstuffedFrame, hprep, hLL]
  have e1 : pre ++ [crc >>> 8, crc &&& 0xFF] = (pre ++ [crc >>> 8]) ++ [crc &&& 0xFF] := by
    simp
  rw [e1, List.map_append]
  simp only [List.map_cons, List.map_nil]
  have hlen2 : ((pre ++ [crc >>> 8]).map stuffByte).length = L + 4 := by
    simp [hplen]; omega
  rw [show (L + 4) = ((pre ++ [crc >>> 8]).map stuffByte).length from hlen2.symm]
  rw [getD_append_last, set_append_last]
  have hlen3 : ((pre ++ [crc >>> 8]).map stuffByte ++
      [stuffByte (crc &&& 0xFF) &&& 0xFFFC]).length = L + 5 := by
    simp [hplen]; omega
  rw [show (L + 5) = ((pre ++ [crc >>> 8]).map stuffByte ++
      [stuffByte (crc &&& 0xFF) &&& 0xFFFC]).length from hlen3.symm]
  rw [take_append_self, List.map_append, map_unstuff_stuff]
  · simp only [List.map_cons, List.map_nil]
    rw [unstuff_stuff_masked _ hlo hloeven]
  · intro b hb
    rcases List.mem_append.mp hb with h | h
    · exact hpre256 b h
    · rcases List.mem_singleton.mp h with rfl
      exact hhi

theorem iden_flags_aux : ∀ hi, hi < 16 → ∀ lo, lo < 256 → ∀ g, g < 8 →
    ((((hi * 256 + lo) >>> 4) &&& 0xFF) <<< 4) |||
      (((((hi * 256 + lo) <<< 4) ||| 0x08 ||| g) % 256) >>> 4) = hi * 256 + lo ∧
    ((((hi * 256 + lo) <<< 4) ||| 0x08 ||| g) % 256) &&& 0x0F = 0x08 ||| g := by decide

theorem iden_flags_roundtrip (iden g : Nat) (hiden : iden < 4096) (hg : g < 8) :
    ((((iden >>> 4) &&& 0xFF) <<< 4) |||
      ((((iden <<< 4) ||| 0x08 ||| g) % 256) >>> 4) = iden ∧
     (((iden <<< 4) ||| 0x08 ||| g) % 256) &&& 0x0F = 0x08 ||| g) := by
  have h := iden_flags_aux (iden / 256) (by omega) (iden % 256) (by omega) g hg
  rw [show iden / 256 * 256 + iden % 256 = iden from by omega] at h
  exact h

theorem DataOf_prepare (x1 x2 x3 hi lo : Nat) (data : List Nat) :
    DataOf (x1 :: x2 :: x3 :: (data ++ [hi, lo])) = data := by
  have h : (x1 :: x2 :: x3 :: (data ++ [hi, lo])).length - 5 = data.length := by
    simp only [List.length_cons, List.length_append, List.length_nil]
    omega
  unfold DataOf
  rw [h]
  simp only [List.drop_succ_cons, List.drop_zero]
  exact take_append_self data [hi, lo]

/-- C8 (amended): for a 12-bit IDEN, any command flags and a payload of at
most 28 octets, the frame PreparePacket stuffs, read back group-by-group
with the receiver's bit extraction, is exactly the plain frame it assembled;
that frame reproduces the IDEN and the payload bytes and passes CheckCrc,
but its COM field reads back as 0x08 ||| (cmdFlags &&& 0x07): the fixed-1
bit is forced and the upper flag bit is dropped, so the original flags value
itself is not always reproduced. -/
theorem C8_roundtrip (iden cmdFlags : Nat) (data : List Nat)
    (hiden : iden < 4096) (hlen : data.length ≤ 28) (hdata : ∀ b ∈ data, b < 256) :
    unstuffedFrame (TVanPacketTxDesc.PreparePacket iden cmdFlags data) =
      prepareBytes iden cmdFlags data ∧
    IdenOf (unstuffedFrame (TVanPacketTxDesc.PreparePacket iden cmdFlags data)) = iden ∧
    CommandFlagsOf (unstuffedFrame (TVanPacketTxDesc.PreparePacket iden cmdFlags data)) =
      0x08 ||| (cmdFlags &&& 0x07) ∧
    DataOf (unstuffedFrame (TVanPacketTxDesc.PreparePacket iden cmdFlags data)) = data ∧
    CheckCrc (unstuffedFrame (TVanPacketTxDesc.PreparePacket iden cmdFlags data)) =
      true := by
  have h1 := unstuffedFrame_PreparePacket iden cmdFlags data hdata
  have htake : data.take (if data.length > 28 then 28 else data.length) = data := by
    rw [if_neg (by omega)]; exact List.take_length ..
  have hflag : cmdFlags &&& 0x07 < 8 := lt_of_le_of_lt Nat.and_le_right (by norm_num)
  obtain ⟨crc, hcrc⟩ : ∃ c, _crc (prePayload iden cmdFlags data ++ [0, 0]) = c := ⟨_, rfl⟩
  have hpb : prepareBytes iden cmdFlags data =
      14 :: (((iden >>> 4) &&& 0xFF) ::
        ((((iden <<< 4) ||| 0x08 ||| (cmdFlags &&& 0x07)) % 256) ::
          (data ++ [crc >>> 8, crc &&& 0xFF]))) := by
    rw [prepareBytes_eq, hcrc]
    simp [prePayload, htake]
  refine ⟨h1, ?_, ?_, ?_, ?_⟩ <;> rw [h1]
  · rw [hpb]
    simp only [IdenOf, List.getD_cons_succ, List.getD_cons_zero]
    exact (iden_flags_roundtrip iden (cmdFlags &&& 0x07) hiden hflag).1
  · rw [hpb]
    simp only [CommandFlagsOf, List.getD_cons_succ, List.getD_cons_zero]
    exact (iden_flags_roundtrip iden (cmdFlags &&& 0x07) hiden hflag).2
  · rw [hpb]
    exact DataOf_prepare ..
  · unfold prepareBytes
    apply checkCrc_withCrc_aux
    rw [List.length_append, prePayload_length]
    split <;> omega

/-- C8 counterexample: with cmdFlags = 0 the COM byte PreparePacket builds
carries the forced fixed-1 bit, so the receiver reads command flags 0x08,
not the original 0x00. -/
theorem C8_counterexample :
    CommandFlagsOf (unstuffedFrame (TVanPacketTxDesc.PreparePacket 0x123 0x00 [])) =
      0x08 ∧ (0x08 : Nat) ≠ 0x00 := by decide

/-- Concrete payload for the C8 witness (the library's usage example). -/
def c8data : List Nat := [0x0F, 0x07, 0x00, 0x00, 0x00, 0x00, 0x70]

/-- Witness: C8_roundtrip evaluated at IDEN 0x8A4, flags 0x08 and the
7-byte example payload. -/
theorem C8_roundtrip_witness :
    unstuffedFrame (TVanPacketTxDesc.PreparePacket 0x8A4 0x08 c8data) =
      prepareBytes 0x8A4 0x08 c8data ∧
    IdenOf (unstuffedFrame (TVanPacketTxDesc.PreparePacket 0x8A4 0x08 c8data)) = 0x8A4 ∧
    CommandFlagsOf (unstuffedFrame (TVanPacketTxDesc.PreparePacket 0x8A4 0x08 c8data)) =
      0x08 ∧
    DataOf (unstuffedFrame (TVanPacketTxDesc.PreparePacket 0x8A4 0x08 c8data)) = c8data ∧
    CheckCrc (unstuffedFrame (TVanPacketTxDesc.PreparePacket 0x8A4 0x08 c8data)) =
      true := by
  have A := C8_roundtrip 0x8A4 0x08 c8data (by decide) (by decide) (by decide)
  exact ⟨A.1, A.2.1, A.2.2.1, A.2.2.2.1, A.2.2.2.2⟩

/-- C10: a PreparePacket call with more than 28 payload bytes silently
builds the packet from the first 28 bytes only: the result equals the call
on the truncated payload, the call does not fail (the descriptor is handed
to the transmitter in state WAITING), the frame is the full 33 groups plus
the EOF group, and the frame payload is exactly the first 28 bytes. -/
theorem C10_truncation (iden cmdFlags : Nat) (data : List Nat)
    (hlen : data.length > 28) :
    TVanPacketTxDesc.PreparePacket iden cmdFlags data =
      TVanPacketTxDesc.PreparePacket iden cmdFlags (data.take 28) ∧
    (TVanPacketTxDesc.PreparePacket iden cmdFlags data).state = .VAN_TX_WAITING ∧
    (TVanPacketTxDesc.PreparePacket iden cmdFlags data).eodAt = 33 ∧
    (TVanPacketTxDesc.PreparePacket iden cmdFlags data).size = 34 ∧
    (DataOf (prepareBytes iden cmdFlags data)).length = 28 ∧
    DataOf (prepareBytes iden cmdFlags data) = data.take 28 := by
  have hlen28 : (data.take 28).length = 28 := by rw [List.length_take]; omega
  have h1 : (if data.length > 28 then 28 else data.length) = 28 := if_pos hlen
  have h2 : (if (data.take 28).length > 28 then 28 else (data.take 28).length) = 28 := by
    rw [hlen28]
    norm_num
  have hpp : prePayload iden cmdFlags data = prePayload iden cmdFlags (data.take 28) := by
    unfold prePayload
    rw [h1, h2, List.take_take]
    norm_num
  have hpb : prepareBytes iden cmdFlags data = prepareBytes iden cmdFlags (data.take 28) := by
    unfold prepareBytes; rw [hpp]
  obtain ⟨crc, hcrc⟩ : ∃ c, _crc (prePayload iden cmdFlags data ++ [0, 0]) = c := ⟨_, rfl⟩
  have hpb2 : prepareBytes iden cmdFlags data =
      14 :: (((iden >>> 4) &&& 0xFF) ::
        ((((iden <<< 4) ||| 0x08 ||| (cmdFlags &&& 0x07)) % 256) ::
          (data.take 28 ++ [crc >>> 8, crc &&& 0xFF]))) := by
    rw [prepareBytes_eq, hcrc]
    simp [prePayload, h1]
  refine ⟨?_, ?_, ?_, ?_, ?_, ?_⟩
  · simp only [TVanPacketTxDesc.PreparePacket, h1, h2, hpb]
  · simp only [TVanPacketTxDesc.PreparePacket]
  · simp only [TVanPacketTxDesc.PreparePacket, h1]
  · simp only [TVanPacketTxDesc.PreparePacket, h1]
  · rw [hpb2, DataOf_prepare, hlen28]
  · rw [hpb2]
    exact DataOf_prepare ..

/-- Witness: C10_truncation evaluated on a 29-byte payload. -/
theorem C10_truncation_witness :
    TVanPacketTxDesc.PreparePacket 0x123 0 (List.replicate 29 1) =
      TVanPacketTxDesc.PreparePacket 0x123 0 ((List.replicate 29 1).take 28) ∧
    (TVanPacketTxDesc.PreparePacket 0x123 0 (List.replicate 29 1)).eodAt = 33 ∧
    (TVanPacketTxDesc.PreparePacket 0x123 0 (List.replicate 29 1)).size = 34 ∧
    DataOf (prepareBytes 0x123 0 (List.replicate 29 1)) = (List.replicate 29 1).take 28 := by
  have A := C10_truncation 0x123 0 (List.replicate 29 1) (by decide)
  exact ⟨A.1, A.2.2.1, A.2.2.2.1, A.2.2.2.2.2⟩

end VanBus
